import Mathlib

/-!
Verification of the stream synchronizer / silence filler of the recording
daemon (`src/recording-daemon/mix.c`).

The C code is shallowly embedded: the `struct mix_s` session state becomes a
Lean structure, machine integers become `Nat`/`Int` with explicit reductions
modulo `2^32` / `2^64` at the points where the C code performs implicit
conversions or can overflow, and every call into an external library
(libavfilter, libavresample, the output sink) is represented by an explicit
environment value recording the outcome that the external call reports back
to `mix.c`.  The control flow of each embedded function follows the C source
line by line.
-/

/-! ## Definitions: the embedded data model and operations -/

/-- `2^64`, the modulus of the C `uint64_t` arithmetic used for all pts
values in `mix.c`. -/
def U64LIM : Nat := 18446744073709551616

/-- `2^32`, the modulus of C `unsigned int` arithmetic. -/
def U32LIM : Nat := 4294967296

/-- Addition of two `uint64_t` values (also models C `int64_t + uint64_t`,
which is performed in `uint64_t` and re-interpreted; on the bit level both
are addition modulo `2^64`). -/
def u64add (a b : Nat) : Nat := (a + b) % U64LIM

/-- Subtraction of `uint64_t` values: `a - b` modulo `2^64`. -/
def u64sub (a b : Nat) : Nat := (a + (U64LIM - b % U64LIM)) % U64LIM

/-- Conversion of a C `int` to `unsigned int` (value modulo `2^32`),
as performed implicitly by the comparisons in `mix_config` and by the
assignment `unsigned int silence_samples = mix->clockrate / 100`. -/
def u32ofInt (i : Int) : Nat := (i % (U32LIM : Int)).toNat

/-- Conversion of a C `int` to `uint64_t` (value modulo `2^64`), as performed
implicitly by `mix->out_pts < mix->clockrate` and
`mix->out_pts - mix->clockrate` in `mix_silence_fill`. -/
def u64ofInt (i : Int) : Nat := (i % (U64LIM : Int)).toNat

/-- Conversion of a C `unsigned int` value to `int`, as performed by the
assignments `mix->clockrate = clockrate; mix->channels = channels;` in
`mix_config` (wrap-around semantics of the usual implementations). -/
def int32ofNat (n : Nat) : Int :=
  if n % U32LIM < 2147483648 then ((n % U32LIM : Nat) : Int)
  else ((n % U32LIM : Nat) : Int) - (U32LIM : Int)

/-- The ffmpeg constant `AV_SAMPLE_FMT_S16`. -/
def AV_SAMPLE_FMT_S16 : Int := 1

/-- `#define NUM_INPUTS 4` from `mix.c`. -/
def NUM_INPUTS : Nat := 4

/-- An `AVFrame` as far as `mix.c` inspects it: its presentation timestamp
(`int64_t`, kept as its bit pattern, a `Nat` below `2^64`), its sample count
and its sample format tag. -/
structure AVFrame where
  pts : Nat
  nb_samples : Nat
  format : Int
deriving DecidableEq

/-- The session state `struct mix_s` of `mix.c`.  Pointer-valued fields that
`mix.c` only ever tests against `NULL` (`graph`/`src_ctxs`/`amix_ctx`/
`sink_ctx`, `silence_frame`, `avresample`, `swr_frame`) are represented by
booleans: the whole filter topology is created and destroyed as one unit
(`mix_config`/`mix_shutdown`), so a single `built` flag stands for all of
its contexts being non-`NULL`. -/
structure mix_s where
  clockrate : Int
  channels : Int
  built : Bool
  pts_offs : Fin 4 → Nat
  in_pts : Fin 4 → Nat
  out_pts : Nat
  next_idx : Nat
  silence_frame : Bool
  avresample : Bool
  swr_frame : Bool
  swr_buffers : Nat
  swr_format : Int

/-- `mix_new`: `g_slice_alloc0` zero-initialises everything, then
`clockrate`/`channels` are set to `-1` and every `pts_offs` entry to the
sentinel `(uint64_t) -1LL = 2^64 - 1`. -/
def mix_new : mix_s :=
  { clockrate := -1
    channels := -1
    built := false
    pts_offs := fun _ => U64LIM - 1
    in_pts := fun _ => 0
    out_pts := 0
    next_idx := 0
    silence_frame := false
    avresample := false
    swr_frame := false
    swr_buffers := 0
    swr_format := 0 }

/-- `mix_get_index`: `return mix->next_idx++;` (post-increment of an
`unsigned int`). -/
def mix_get_index (mix : mix_s) : Nat × mix_s :=
  (mix.next_idx, { mix with next_idx := (mix.next_idx + 1) % U32LIM })

/-- `mix_shutdown`: frees the filter contexts, the graph and the resample
context.  It does not touch the pts counters, offsets, the silence frame or
the resample output frame. -/
def mix_shutdown (mix : mix_s) : mix_s :=
  { mix with built := false, avresample := false }

/-- Result of `mix_config`: the returned status, the new state, and whether
a teardown/rebuild of the topology was performed (false exactly on the
early `return 0` path). -/
structure ConfigOut where
  ret : Int
  st : mix_s
  rebuilt : Bool

/-- `mix_config(mix, clockrate, channels)`.  The no-op test compares the
stored `int` fields with the `unsigned int` parameters, so both sides are
converted to `unsigned int`.  On a mismatch the parameters are copied
*before* the topology is built; `buildOk` is the outcome the external
libavfilter build steps report, and any failure runs `mix_shutdown` and
returns `-1`. -/
def mix_config (mix : mix_s) (clockrate channels : Nat) (buildOk : Bool) : ConfigOut :=
  if u32ofInt mix.clockrate = clockrate % U32LIM ∧
     u32ofInt mix.channels = channels % U32LIM then
    ⟨0, mix, false⟩
  else
    let m2 := { mix_shutdown mix with
                  clockrate := int32ofNat clockrate
                  channels := int32ofNat channels }
    if buildOk then ⟨0, { m2 with built := true }, true⟩
    else ⟨-1, mix_shutdown m2, true⟩

/-- One synthesized silence chunk: the pts it was stamped with, its sample
count, and whether the forward into the mixing engine
(`av_buffersrc_write_frame`) succeeded. -/
structure Chunk where
  pts : Nat
  nb : Nat
  written : Bool
deriving DecidableEq

/-- External outcomes consumed by the silence filler: the result of the one
`av_frame_get_buffer` call that lazily creates the silence frame, and the
result of each `av_buffersrc_write_frame`, indexed by a running count of
silence chunks. -/
structure SilenceEnv where
  getBufOk : Bool
  writeOk : Nat → Bool

/-- Result of the silence-fill loop on the scalar components it touches. -/
structure LoopOut where
  pts : Nat
  sf : Bool
  chunks : List Chunk
  k : Nat
  diverged : Bool

/-- The `while (mix->in_pts[idx] < upto)` loop body of
`mix_silence_fill_idx_upto`, on its scalar state: `ss` is
`silence_samples = clockrate / 100`, `pts` is `in_pts[idx]`, `sf` the
`silence_frame != NULL` flag, `k` the running chunk counter indexing
`writeOk`.  If the lazy `av_frame_get_buffer` fails the C code returns
early (with `silence_frame` left non-`NULL`).  When `ss = 0` and
`pts < upto` the C loop makes no progress and never terminates; this is
recorded by `diverged := true` (see `silence_loop_fuel` for the
step-faithful version witnessing the non-termination). -/
def silence_loop_go (fuel ss upto : Nat) (w : Nat → Bool) (gb : Bool)
    (pts : Nat) (sf : Bool) (k : Nat) : LoopOut :=
  if pts < upto then
    if sf = false ∧ gb = false then ⟨pts, true, [], k, false⟩
    else if ss = 0 then ⟨pts, true, [], k, true⟩
    else
      match fuel with
      | 0 => ⟨pts, true, [], k, true⟩
      | fuel2 + 1 =>
        let nb := min ss (upto - pts)
        match silence_loop_go fuel2 ss upto w gb (pts + nb) true (k + 1) with
        | ⟨p, s, cs, k2, d⟩ => ⟨p, s, ⟨pts, nb, w k⟩ :: cs, k2, d⟩
  else ⟨pts, sf, [], k, false⟩

/-- The `while (mix->in_pts[idx] < upto)` loop of `mix_silence_fill_idx_upto`
(see `silence_loop_go` for the loop body): since every iteration with
`ss ≠ 0` advances `pts` by at least one sample, `upto - pts` iterations
always suffice, and that is the fuel used. -/
def silence_loop (ss upto : Nat) (w : Nat → Bool) (gb : Bool)
    (pts : Nat) (sf : Bool) (k : Nat) : LoopOut :=
  silence_loop_go (upto - pts) ss upto w gb pts sf k

/-- Fuel-indexed, step-faithful version of the same loop: one fuel unit per
iteration of the C `while` loop, `none` when the fuel runs out before the
loop exits.  `silence_loop … |>.diverged = true` corresponds to this
returning `none` for every fuel. -/
def silence_loop_fuel : Nat → Nat → Nat → (Nat → Bool) → Bool →
    Nat → Bool → Nat → Option (Nat × Bool × List Chunk × Nat)
  | 0, _, _, _, _, _, _, _ => none
  | fuel + 1, ss, upto, w, gb, pts, sf, k =>
    if pts < upto then
      if sf = false ∧ gb = false then some (pts, true, [], k)
      else
        let nb := min ss (upto - pts)
        match silence_loop_fuel fuel ss upto w gb (pts + nb) true (k + 1) with
        | none => none
        | some (p, s, cs, k2) => some (p, s, ⟨pts, nb, w k⟩ :: cs, k2)
    else some (pts, sf, [], k)

/-- Result of `mix_silence_fill_idx_upto` on the session state. -/
structure FillOut where
  st : mix_s
  chunks : List Chunk
  k : Nat
  diverged : Bool

/-- `mix_silence_fill_idx_upto(mix, idx, upto)`:
`unsigned int silence_samples = mix->clockrate / 100` (C `int` division then
conversion to `unsigned int`), then the loop above on `in_pts[idx]`. -/
def mix_silence_fill_idx_upto (mix : mix_s) (idx : Fin 4) (upto : Nat)
    (env : SilenceEnv) (k : Nat) : FillOut :=
  let ss := u32ofInt (Int.tdiv mix.clockrate 100)
  let r := silence_loop ss upto env.writeOk env.getBufOk (mix.in_pts idx) mix.silence_frame k
  ⟨{ mix with in_pts := Function.update mix.in_pts idx r.pts, silence_frame := r.sf },
   r.chunks, r.k, r.diverged⟩

/-- Result of the proactive `mix_silence_fill` pass. -/
structure Fill4Out where
  st : mix_s
  k : Nat
  diverged : Bool

/-- `mix_silence_fill`: nothing below one second of output
(`mix->out_pts < mix->clockrate`, the `int` converted to `uint64_t`),
otherwise every input is filled up to `out_pts - clockrate`.  The four
fills run in order; a diverging fill never reaches the later inputs. -/
def mix_silence_fill (mix : mix_s) (env : SilenceEnv) (k : Nat) : Fill4Out :=
  if mix.out_pts < u64ofInt mix.clockrate then ⟨mix, k, false⟩
  else
    let upto := mix.out_pts - u64ofInt mix.clockrate
    let f0 := mix_silence_fill_idx_upto mix 0 upto env k
    if f0.diverged then ⟨f0.st, f0.k, true⟩ else
    let f1 := mix_silence_fill_idx_upto f0.st 1 upto env f0.k
    if f1.diverged then ⟨f1.st, f1.k, true⟩ else
    let f2 := mix_silence_fill_idx_upto f1.st 2 upto env f1.k
    if f2.diverged then ⟨f2.st, f2.k, true⟩ else
    let f3 := mix_silence_fill_idx_upto f2.st 3 upto env f2.k
    ⟨f3.st, f3.k, f3.diverged⟩

/-- Observable events of a submission: a frame (or, after a conversion
failure, no frame) being handed to the output sink, and error log lines. -/
inductive Ev where
  | sink (fr : Option AVFrame)
  | log (msg : String)
deriving DecidableEq

/-- External outcomes consumed by one `mix_resample_frame` call:
`allocOk`/`openOk` for the lazy `avresample_alloc_context` /
`avresample_open` pair, `avail`/`delay` for `avresample_available` /
`avresample_get_delay`, `getBufOk` for `av_frame_get_buffer` on the grown
output frame, and `convert` for `avresample_convert` (`none` = negative
return, `some n` = `n` converted samples). -/
structure ResampleEnv where
  allocOk : Bool
  openOk : Bool
  avail : Nat
  delay : Nat
  getBufOk : Bool
  convert : Option Nat

/-- Result of `mix_resample_frame`. -/
structure ResampleOut where
  fr : Option AVFrame
  st : mix_s
  evs : List Ev

/-- The `avresample_convert` step shared by both branches of the buffer
check: on success the output frame carries `ret_samples` samples, the pts
`av_rescale(frame->pts, clockrate, clockrate)` (the identity on the value)
and the format field the persistent `swr_frame` was created with. -/
def resampleConvert (mix : mix_s) (frame : AVFrame) (rs : ResampleEnv) : ResampleOut :=
  match rs.convert with
  | none => ⟨none, mix, [Ev.log "failed to resample audio"]⟩
  | some ret_samples =>
    ⟨some { pts := frame.pts, nb_samples := ret_samples, format := mix.swr_format },
     mix, []⟩

/-- `mix_resample_frame(mix, frame)`: pass-through for `AV_SAMPLE_FMT_S16`
frames; otherwise lazily allocate and open the resample context, grow the
reusable output frame when `swr_buffers` is too small for
`dst_samples = avresample_available(…) + av_rescale_rnd(avresample_get_delay(…)
+ frame->nb_samples, clockrate, clockrate, AV_ROUND_UP)` (the rescale with
equal factors is the identity), and convert.  Every failure logs and
returns `NULL` (`fr = none`). -/
def mix_resample_frame (mix : mix_s) (frame : AVFrame) (rs : ResampleEnv) : ResampleOut :=
  if frame.format = AV_SAMPLE_FMT_S16 then ⟨some frame, mix, []⟩
  else if mix.avresample = false ∧ rs.allocOk = false then
    ⟨none, mix, [Ev.log "failed to alloc resample context"]⟩
  else if mix.avresample = false ∧ rs.openOk = false then
    ⟨none, { mix with avresample := true }, [Ev.log "failed to init resample context"]⟩
  else
    let m1 := { mix with avresample := true }
    let dst := rs.avail + (rs.delay + frame.nb_samples)
    if m1.swr_frame = false ∨ m1.swr_buffers < dst then
      if rs.getBufOk = false then
        ⟨none, { m1 with swr_frame := true }, [Ev.log "failed to get resample buffers"]⟩
      else
        resampleConvert
          { m1 with swr_frame := true, swr_buffers := dst, swr_format := frame.format }
          frame rs
    else resampleConvert m1 frame rs

/-- One iteration of the drain loop as seen from `mix.c`: the outcome of
`av_buffersink_get_frame` (a combined frame together with the external
outcomes of its resampling and of the sink call on it, or `EAGAIN`, or a
hard error). -/
inductive DrainItem where
  | frame (f : AVFrame) (rs : ResampleEnv) (sinkRet : Int)
  | eagain
  | error

/-- Result of the drain loop. -/
structure DrainOut where
  ret : Int
  st : mix_s
  evs : List Ev

/-- The `while (1)` drain loop at the end of `mix_add`: pull, resample,
hand to the output sink, stop on `EAGAIN` (or when the engine has nothing
further ready, the empty list), abort with `-1` on any other pull error or
when the sink reports failure.

Modelled from the spec: `output_add` (the Output Sink `accept`) lives in
`output.c`, which is not part of the sources here.  For a real frame its
status is the environment-chosen `sinkRet`.  After a conversion failure
`mix.c` passes a `NULL` frame; the spec's containment guarantee (the
offending frame is dropped, the drain aborts for that one pull only and
the session remains usable) entails that the sink reports no error for a
dropped frame, so that call is modelled as returning 0. -/
def mix_drain (mix : mix_s) : List DrainItem → DrainOut
  | [] => ⟨0, mix, []⟩
  | DrainItem.eagain :: _ => ⟨0, mix, []⟩
  | DrainItem.error :: _ => ⟨-1, mix, [Ev.log "failed to get frame from mixer"]⟩
  | DrainItem.frame f rs sret :: rest =>
    let r := mix_resample_frame mix f rs
    let ret : Int := match r.fr with | none => 0 | some _ => sret
    if ret ≠ 0 then ⟨-1, r.st, r.evs ++ [Ev.sink r.fr]⟩
    else
      let d := mix_drain r.st rest
      ⟨d.ret, d.st, r.evs ++ Ev.sink r.fr :: d.evs⟩

/-- External outcomes consumed by one `mix_add` call: the silence-fill
environment for the catch-up fill to the new frame's pts, the outcome of
`av_buffersrc_add_frame`, the silence-fill environment for the proactive
`mix_silence_fill` pass, and the drain-loop iterations. -/
structure AddEnv where
  sil1 : SilenceEnv
  addOk : Bool
  sil2 : SilenceEnv
  pulls : List DrainItem

/-- The stages of `mix_add` before the drain loop. -/
inductive PreOut where
  | rejected (logmsg : String)
  | failed (s : mix_s)
  | diverged (s : mix_s) (freed : Bool)
  | ok (s : mix_s)

/-- `mix_add` up to (not including) the drain loop, following the C source:
index range check, `src_ctxs[idx]` null check, sentinel-guarded offset
resolution, `frame->pts += pts_offs[idx]`, catch-up silence fill to the
frame's adjusted pts, `av_buffersrc_add_frame` (whose failure keeps the
already-performed offset/fill mutations), the running-counter updates, and
the proactive `mix_silence_fill` pass.  `diverged` marks the states in
which the C silence-fill loop would never terminate (so the C call never
returns); `freed` records whether `av_frame_free(&frame)` had already run
at that point. -/
def mix_add_pre (mix : mix_s) (frame : AVFrame) (idx : Nat)
    (sil1 : SilenceEnv) (addOk : Bool) (sil2 : SilenceEnv) : PreOut :=
  if h : idx < 4 then
    if mix.built = true then
      let i : Fin 4 := ⟨idx, h⟩
      let m1 := if mix.pts_offs i = U64LIM - 1 then
          { mix with pts_offs := Function.update mix.pts_offs i (u64sub mix.out_pts frame.pts) }
        else mix
      let fpts := u64add frame.pts (m1.pts_offs i)
      let f1 := mix_silence_fill_idx_upto m1 i fpts sil1 0
      if f1.diverged then PreOut.diverged f1.st false
      else if addOk = false then PreOut.failed f1.st
      else
        let next_pts := u64add fpts frame.nb_samples
        let m3 := { f1.st with
                      out_pts := max f1.st.out_pts next_pts
                      in_pts := Function.update f1.st.in_pts i (max (f1.st.in_pts i) next_pts) }
        let f2 := mix_silence_fill m3 sil2 f1.k
        if f2.diverged then PreOut.diverged f2.st true else PreOut.ok f2.st
    else PreOut.rejected "mixer not initialized"
  else PreOut.rejected "index out of range"

/-- Result of `mix_add`: the returned status, the new session state, whether
the submitted frame's ownership was released (`av_frame_free`), whether the
call would in fact never return (silence-loop divergence), and the sink /
log events it produced. -/
structure AddResult where
  ret : Int
  st : mix_s
  freed : Bool
  diverged : Bool
  evs : List Ev

/-- `mix_add(mix, frame, idx, output)`: the staged front half followed by
the drain loop.  Every returning path frees the submitted frame exactly
once (`av_frame_free` on the error paths and after the counter updates on
the success path). -/
def mix_add (mix : mix_s) (frame : AVFrame) (idx : Nat) (env : AddEnv) : AddResult :=
  match mix_add_pre mix frame idx env.sil1 env.addOk env.sil2 with
  | PreOut.rejected msg => ⟨-1, mix, true, false, [Ev.log msg]⟩
  | PreOut.failed s => ⟨-1, s, true, false, [Ev.log "failed to add frame to mixer"]⟩
  | PreOut.diverged s fr => ⟨0, s, fr, true, []⟩
  | PreOut.ok s =>
    let d := mix_drain s env.pulls
    ⟨d.ret, d.st, true, false, d.evs⟩

/-- The `silence_samples` value a state's clock rate yields
(`unsigned int silence_samples = mix->clockrate / 100`). -/
def ssOf (mix : mix_s) : Nat := u32ofInt (Int.tdiv mix.clockrate 100)

/-- The state a `PreOut` carries (the original state for a rejection). -/
def PreOut.stOr (p : PreOut) (dflt : mix_s) : mix_s :=
  match p with
  | .rejected _ => dflt
  | .failed s => s
  | .diverged s _ => s
  | .ok s => s

/-- The largest `nextExpectedTimestamp` over the four inputs. -/
def maxIn (s : mix_s) : Nat :=
  max (max (s.in_pts 0) (s.in_pts 1)) (max (s.in_pts 2) (s.in_pts 3))

/-- Absence of `uint64_t` wrap-around in one submission: the frame's
offset-adjusted end timestamp `frame->pts + pts_offs[idx] + nb_samples`
stays below `2^64`. -/
def add_no_wrap (mix : mix_s) (frame : AVFrame) (idx : Fin 4) : Prop :=
  (if mix.pts_offs idx = U64LIM - 1 then u64add frame.pts (u64sub mix.out_pts frame.pts)
   else u64add frame.pts (mix.pts_offs idx)) + frame.nb_samples < U64LIM

/-- One call into the mixer API, from any caller, with any outcomes of the
external libav calls.  A call on which the C silence-fill loop would never
terminate yields no successor state. -/
inductive Step : mix_s → mix_s → Prop
  | config (s : mix_s) (cr ch : Nat) (b : Bool) : Step s (mix_config s cr ch b).st
  | get_index (s : mix_s) : Step s (mix_get_index s).2
  | add (s : mix_s) (f : AVFrame) (idx : Nat) (env : AddEnv) :
      (mix_add s f idx env).diverged = false → Step s (mix_add s f idx env).st

/-- Session states reachable from `mix_new` by any sequence of calls. -/
inductive Reach : mix_s → Prop
  | init : Reach mix_new
  | step {s t : mix_s} : Reach s → Step s t → Reach t

/-- Session states reachable from `mix_new` by calls in which every
submission was accepted (`mix_add` returned 0), terminated, and suffered no
`uint64_t` wrap-around of the adjusted frame timestamps. -/
inductive ReachOk : mix_s → Prop
  | init : ReachOk mix_new
  | config {s : mix_s} (cr ch : Nat) (b : Bool) :
      ReachOk s → ReachOk (mix_config s cr ch b).st
  | get_index {s : mix_s} : ReachOk s → ReachOk (mix_get_index s).2
  | add {s : mix_s} (f : AVFrame) (idx : Nat) (env : AddEnv) (h4 : idx < 4)
      (hr : (mix_add s f idx env).ret = 0)
      (hd : (mix_add s f idx env).diverged = false)
      (hw : add_no_wrap s f ⟨idx, h4⟩) :
      ReachOk s → ReachOk (mix_add s f idx env).st

/-- Invariant for the timeline-tracking claim: `out_pts` is the maximum of
the per-input counters and no counter has wrapped around `2^64`. -/
def TimelineInv (s : mix_s) : Prop :=
  s.out_pts = maxIn s ∧ s.out_pts < U64LIM ∧ ∀ j : Fin 4, s.in_pts j < U64LIM

/-- A silence-fill environment in which every external call succeeds. -/
def envAllOk : SilenceEnv := ⟨true, fun _ => true⟩

/-- A submission environment in which every external call succeeds and the
engine has no combined output ready. -/
def addEnvOk : AddEnv := ⟨envAllOk, true, envAllOk, []⟩

/-- A fresh session configured at 8000 Hz mono, with the build succeeding. -/
def cfg8000 : mix_s := (mix_config mix_new 8000 1 true).st

/-- The session state after `n` calls to `mix_get_index` on a fresh session. -/
def alloc_seq : Nat → mix_s
  | 0 => mix_new
  | n + 1 => (mix_get_index (alloc_seq n)).2

/-- The index returned by the `(n+1)`-st call to `mix_get_index` on a fresh
session. -/
def alloc_val (n : Nat) : Nat := (mix_get_index (alloc_seq n)).1

/-- Whether a drain-loop pull delivered a combined frame. -/
def drain_item_is_frame : DrainItem → Bool
  | DrainItem.frame _ _ _ => true
  | _ => false

/-- The sink status the drain loop obtains for one pulled frame at state
`s` (0 when the conversion failed and the frame was dropped, the
environment-chosen sink status otherwise). -/
def drain_item_ret (s : mix_s) : DrainItem → Int
  | DrainItem.frame f rs sret =>
    match (mix_resample_frame s f rs).fr with
    | none => 0
    | some _ => sret
  | _ => 0

/-- The session state after the drain loop has processed one pulled frame. -/
def drain_item_st (s : mix_s) : DrainItem → mix_s
  | DrainItem.frame f rs _ => (mix_resample_frame s f rs).st
  | _ => s

/-- The events one processed pull contributes. -/
def drain_item_evs (s : mix_s) : DrainItem → List Ev
  | DrainItem.frame f rs _ =>
    (mix_resample_frame s f rs).evs ++ [Ev.sink (mix_resample_frame s f rs).fr]
  | _ => []

/-- The session state after the drain loop has processed a list of pulls. -/
def drain_states (s : mix_s) : List DrainItem → mix_s
  | [] => s
  | it :: rest => drain_states (drain_item_st s it) rest

/-- The events accumulated while the drain loop processes a list of pulls. -/
def drain_evs (s : mix_s) : List DrainItem → List Ev
  | [] => []
  | it :: rest => drain_item_evs s it ++ drain_evs (drain_item_st s it) rest

/-- A list of pulls the drain loop runs through completely: every item is a
ready combined frame whose sink call reports success. -/
def drain_ok (s : mix_s) : List DrainItem → Prop
  | [] => True
  | it :: rest =>
    drain_item_is_frame it = true ∧ drain_item_ret s it = 0 ∧
    drain_ok (drain_item_st s it) rest

/-- A successfully drained pull used by the claim C6 witness: a ready S16
frame the sink accepts. -/
def c6good : DrainItem := DrainItem.frame ⟨0, 160, 1⟩ ⟨true, true, 0, 0, true, none⟩ 0

/-- The failing pull of the claim C6 witness: the engine has a ready S16
frame and the sink rejects it. -/
def c6pull : DrainItem := DrainItem.frame ⟨0, 160, 1⟩ ⟨true, true, 0, 0, true, none⟩ (-1)

/-- The submission environment used by the claim C6 witness: one frame is
drained and accepted, then the sink rejects the second one mid-cycle. -/
def c6env : AddEnv := ⟨envAllOk, true, envAllOk, [c6good, c6pull]⟩

/-- The session state entering the drain loop in the claim C6 witness. -/
def c6s4 : mix_s := (mix_add cfg8000 ⟨0, 160, 1⟩ 0 addEnvOk).st

/-- The failing resample environment used by the claim C8 witness
(`avresample_alloc_context` fails). -/
def c8rs : ResampleEnv := ⟨false, true, 0, 0, true, none⟩

/-- The submission environment of the claim C1 counterexample: the lazy
silence-frame buffer allocation (`av_frame_get_buffer`) fails during the
proactive pass. -/
def c1envBuf : AddEnv := ⟨envAllOk, true, ⟨false, fun _ => true⟩, []⟩

/-- The first, accepted submission of the claim C3 counterexample. -/
def c3s1 : mix_s := (mix_add cfg8000 ⟨0, 160, 1⟩ 0 addEnvOk).st

/-- The second submission of the claim C3 counterexample: the frame jumps
340 samples ahead and `av_buffersrc_add_frame` fails. -/
def c3r2 : AddResult := mix_add c3s1 ⟨500, 50, 1⟩ 0 ⟨envAllOk, false, envAllOk, []⟩

/-- A session configured at 50 Hz (build succeeding): `50 / 100 = 0`, so
every silence chunk is empty. -/
def s50 : mix_s := (mix_config mix_new 50 1 true).st

/-- Non-termination of the C silence-fill loop, stated on the step-faithful
fuel-indexed version: every fuel bound is exhausted without the loop
exiting. -/
def silence_loop_diverges (ss upto : Nat) (w : Nat → Bool) (gb : Bool)
    (pts : Nat) (sf : Bool) : Prop :=
  ∀ fuel k, silence_loop_fuel fuel ss upto w gb pts sf k = none

/-! ## Theorems -/

/-- The result of silence_loop_go does not depend on the fuel, as long as the
fuel is at least `upto - pts` (every chunk advances `pts` by at least one
sample when `ss ≠ 0`, so `upto - pts` iterations always suffice; the
`fuel = 0` fallback arm of `silence_loop_go` is never reached from
`silence_loop`). -/
theorem silence_loop_go_fuel_irrel (ss upto : Nat) (w : Nat → Bool) (gb : Bool) :
    ∀ fuel fuel2 pts sf k, upto - pts ≤ fuel → upto - pts ≤ fuel2 →
      silence_loop_go fuel ss upto w gb pts sf k =
        silence_loop_go fuel2 ss upto w gb pts sf k := by
  intro fuel
  induction fuel with
  | zero =>
    intro fuel2 pts sf k h1 h2
    have hge : ¬ pts < upto := by omega
    rw [silence_loop_go.eq_def, silence_loop_go.eq_def, if_neg hge, if_neg hge]
  | succ f ih =>
    intro fuel2 pts sf k h1 h2
    by_cases hlt : pts < upto
    · by_cases halloc : sf = false ∧ gb = false
      · rw [silence_loop_go.eq_def, silence_loop_go.eq_def, if_pos hlt, if_pos hlt,
            if_pos halloc, if_pos halloc]
      · by_cases hss : ss = 0
        · rw [silence_loop_go.eq_def, silence_loop_go.eq_def, if_pos hlt, if_pos hlt,
              if_neg halloc, if_neg halloc, if_pos hss, if_pos hss]
        · have hnb : 1 ≤ min ss (upto - pts) := by omega
          rcases fuel2 with _ | f2
          · omega
          · rw [silence_loop_go.eq_def, silence_loop_go.eq_def, if_pos hlt, if_pos hlt,
                if_neg halloc, if_neg halloc, if_neg hss, if_neg hss]
            dsimp only
            have hrec := ih f2 (pts + min ss (upto - pts)) true (k + 1) (by omega) (by omega)
            rw [hrec]
    · rw [silence_loop_go.eq_def, silence_loop_go.eq_def, if_neg hlt, if_neg hlt]

theorem silence_loop_eq_done {ss upto : Nat} {w : Nat → Bool} {gb : Bool} {pts : Nat}
    {sf : Bool} {k : Nat} (h : ¬ pts < upto) :
    silence_loop ss upto w gb pts sf k = ⟨pts, sf, [], k, false⟩ := by
  rw [silence_loop, silence_loop_go.eq_def, if_neg h]

theorem silence_loop_eq_nobuf {ss upto : Nat} {w : Nat → Bool} {gb : Bool} {pts : Nat}
    {sf : Bool} {k : Nat} (h : pts < upto) (h2 : sf = false) (h3 : gb = false) :
    silence_loop ss upto w gb pts sf k = ⟨pts, true, [], k, false⟩ := by
  rw [silence_loop, silence_loop_go.eq_def, if_pos h, if_pos ⟨h2, h3⟩]

theorem silence_loop_eq_zero {ss upto : Nat} {w : Nat → Bool} {gb : Bool} {pts : Nat}
    {sf : Bool} {k : Nat} (h : pts < upto) (h2 : ¬(sf = false ∧ gb = false)) (h3 : ss = 0) :
    silence_loop ss upto w gb pts sf k = ⟨pts, true, [], k, true⟩ := by
  rw [silence_loop, silence_loop_go.eq_def, if_pos h, if_neg h2, if_pos h3]

theorem silence_loop_eq_step {ss upto : Nat} {w : Nat → Bool} {gb : Bool} {pts : Nat}
    {sf : Bool} {k : Nat} (h : pts < upto) (h2 : ¬(sf = false ∧ gb = false)) (h3 : ¬ ss = 0) :
    silence_loop ss upto w gb pts sf k =
      ⟨(silence_loop ss upto w gb (pts + min ss (upto - pts)) true (k + 1)).pts,
       (silence_loop ss upto w gb (pts + min ss (upto - pts)) true (k + 1)).sf,
       ⟨pts, min ss (upto - pts), w k⟩ ::
         (silence_loop ss upto w gb (pts + min ss (upto - pts)) true (k + 1)).chunks,
       (silence_loop ss upto w gb (pts + min ss (upto - pts)) true (k + 1)).k,
       (silence_loop ss upto w gb (pts + min ss (upto - pts)) true (k + 1)).diverged⟩ := by
  have hnb : 1 ≤ min ss (upto - pts) := by omega
  have hirr := silence_loop_go_fuel_irrel ss upto w gb (upto - pts - 1)
    (upto - (pts + min ss (upto - pts))) (pts + min ss (upto - pts)) true (k + 1)
    (by omega) (by omega)
  conv_rhs => rw [silence_loop]
  rw [silence_loop,
      show upto - pts = (upto - pts - 1) + 1 from by omega,
      silence_loop_go.eq_def, if_pos h, if_neg h2, if_neg h3]
  dsimp only
  rw [hirr, show upto - pts - 1 + 1 = upto - pts from by omega]

/-- The recursion structure of the silence-fill loop, as an induction
principle: the four cases are the four exits/steps of one loop iteration. -/
theorem silence_loop_induction (ss upto : Nat) (gb : Bool)
    (motive : Nat → Bool → Nat → Prop)
    (h1 : ∀ pts sf k, pts < upto → sf = false ∧ gb = false → motive pts sf k)
    (h2 : ∀ pts sf k, pts < upto → ¬(sf = false ∧ gb = false) → ss = 0 → motive pts sf k)
    (h3 : ∀ pts sf k, pts < upto → ¬(sf = false ∧ gb = false) → ¬ ss = 0 →
      motive (pts + min ss (upto - pts)) true (k + 1) → motive pts sf k)
    (h4 : ∀ pts sf k, ¬ pts < upto → motive pts sf k) :
    ∀ pts sf k, motive pts sf k := by
  suffices H : ∀ n pts sf k, upto - pts ≤ n → motive pts sf k by
    intro pts sf k
    exact H (upto - pts) pts sf k (le_refl _)
  intro n
  induction n with
  | zero =>
    intro pts sf k hn
    exact h4 pts sf k (by omega)
  | succ n ih =>
    intro pts sf k hn
    by_cases hlt : pts < upto
    · by_cases halloc : sf = false ∧ gb = false
      · exact h1 pts sf k hlt halloc
      · by_cases hss : ss = 0
        · exact h2 pts sf k hlt halloc hss
        · have hnb : 1 ≤ min ss (upto - pts) := by omega
          exact h3 pts sf k hlt halloc hss
            (ih (pts + min ss (upto - pts)) true (k + 1) (by omega))
    · exact h4 pts sf k hlt

theorem silence_loop_pts_lower (ss upto : Nat) (w : Nat → Bool) (gb : Bool)
    (pts : Nat) (sf : Bool) (k : Nat) : pts ≤ (silence_loop ss upto w gb pts sf k).pts := by
  induction pts, sf, k using silence_loop_induction ss upto gb with
  | h1 pts sf k h h2 => rw [silence_loop_eq_nobuf h h2.1 h2.2]
  | h2 pts sf k h h2 h3 => rw [silence_loop_eq_zero h h2 h3]
  | h3 pts sf k h h2 h3 ih =>
    rw [silence_loop_eq_step h h2 h3]
    dsimp only
    omega
  | h4 pts sf k h => rw [silence_loop_eq_done h]

theorem silence_loop_pts_upper (ss upto : Nat) (w : Nat → Bool) (gb : Bool)
    (pts : Nat) (sf : Bool) (k : Nat) :
    (silence_loop ss upto w gb pts sf k).pts ≤ max pts upto := by
  induction pts, sf, k using silence_loop_induction ss upto gb with
  | h1 pts sf k h h2 => rw [silence_loop_eq_nobuf h h2.1 h2.2]; dsimp only; omega
  | h2 pts sf k h h2 h3 => rw [silence_loop_eq_zero h h2 h3]; dsimp only; omega
  | h3 pts sf k h h2 h3 ih =>
    rw [silence_loop_eq_step h h2 h3]
    dsimp only
    have hmin : min ss (upto - pts) ≤ upto - pts := Nat.min_le_right _ _
    omega
  | h4 pts sf k h => rw [silence_loop_eq_done h]; dsimp only; omega

theorem silence_loop_complete (ss upto : Nat) (w : Nat → Bool)
    (pts : Nat) (sf : Bool) (k : Nat) (hss : 1 ≤ ss) :
    (silence_loop ss upto w true pts sf k).pts = max pts upto ∧
    (silence_loop ss upto w true pts sf k).diverged = false := by
  induction pts, sf, k using silence_loop_induction ss upto true with
  | h1 pts sf k h h2 => exact absurd h2.2 (by simp)
  | h2 pts sf k h h2 h3 => omega
  | h3 pts sf k h h2 h3 ih =>
    rw [silence_loop_eq_step h h2 h3]
    dsimp only
    have hmin : min ss (upto - pts) ≤ upto - pts := Nat.min_le_right _ _
    constructor
    · rw [ih.1]; omega
    · exact ih.2
  | h4 pts sf k h => rw [silence_loop_eq_done h]; exact ⟨by dsimp only; omega, rfl⟩

theorem silence_loop_sum (ss upto : Nat) (w : Nat → Bool) (gb : Bool)
    (pts : Nat) (sf : Bool) (k : Nat) :
    (silence_loop ss upto w gb pts sf k).pts =
      pts + (((silence_loop ss upto w gb pts sf k).chunks.map Chunk.nb).sum) := by
  induction pts, sf, k using silence_loop_induction ss upto gb with
  | h1 pts sf k h h2 => rw [silence_loop_eq_nobuf h h2.1 h2.2]; simp
  | h2 pts sf k h h2 h3 => rw [silence_loop_eq_zero h h2 h3]; simp
  | h3 pts sf k h h2 h3 ih =>
    rw [silence_loop_eq_step h h2 h3]
    dsimp only
    simp only [List.map_cons, List.sum_cons]
    omega
  | h4 pts sf k h => rw [silence_loop_eq_done h]; simp

theorem silence_loop_chunk_mem (ss upto : Nat) (w : Nat → Bool) (gb : Bool)
    (pts : Nat) (sf : Bool) (k : Nat) :
    ∀ c ∈ (silence_loop ss upto w gb pts sf k).chunks,
      pts ≤ c.pts ∧ c.pts < upto ∧ c.nb = min ss (upto - c.pts) ∧ 1 ≤ c.nb ∧
      c.pts + c.nb ≤ (silence_loop ss upto w gb pts sf k).pts := by
  induction pts, sf, k using silence_loop_induction ss upto gb with
  | h1 pts sf k h h2 => rw [silence_loop_eq_nobuf h h2.1 h2.2]; simp
  | h2 pts sf k h h2 h3 => rw [silence_loop_eq_zero h h2 h3]; simp
  | h3 pts sf k h h2 h3 ih =>
    rw [silence_loop_eq_step h h2 h3]
    dsimp only
    intro c hc
    have hlow := silence_loop_pts_lower ss upto w gb (pts + min ss (upto - pts)) true (k + 1)
    rcases List.mem_cons.mp hc with hc | hc
    · subst hc
      refine ⟨Nat.le_refl _, h, rfl, by dsimp only; omega, by dsimp only; omega⟩
    · have := ih c hc
      exact ⟨by omega, this.2.1, this.2.2.1, this.2.2.2.1, this.2.2.2.2⟩
  | h4 pts sf k h => rw [silence_loop_eq_done h]; simp

theorem silence_loop_w_indep (ss upto : Nat) (w w2 : Nat → Bool) (gb : Bool)
    (pts : Nat) (sf : Bool) (k : Nat) :
    (silence_loop ss upto w gb pts sf k).pts = (silence_loop ss upto w2 gb pts sf k).pts ∧
    (silence_loop ss upto w gb pts sf k).sf = (silence_loop ss upto w2 gb pts sf k).sf ∧
    (silence_loop ss upto w gb pts sf k).k = (silence_loop ss upto w2 gb pts sf k).k ∧
    (silence_loop ss upto w gb pts sf k).diverged =
      (silence_loop ss upto w2 gb pts sf k).diverged ∧
    (silence_loop ss upto w gb pts sf k).chunks.map (fun c => (c.pts, c.nb)) =
      (silence_loop ss upto w2 gb pts sf k).chunks.map (fun c => (c.pts, c.nb)) := by
  induction pts, sf, k using silence_loop_induction ss upto gb with
  | h1 pts sf k h h2 =>
    rw [silence_loop_eq_nobuf h h2.1 h2.2, silence_loop_eq_nobuf h h2.1 h2.2]
    simp
  | h2 pts sf k h h2 h3 =>
    rw [silence_loop_eq_zero h h2 h3, silence_loop_eq_zero h h2 h3]
    simp
  | h3 pts sf k h h2 h3 ih =>
    rw [silence_loop_eq_step h h2 h3, silence_loop_eq_step (w := w2) h h2 h3]
    dsimp only
    simp only [List.map_cons]
    exact ⟨ih.1, ih.2.1, ih.2.2.1, ih.2.2.2.1, by rw [ih.2.2.2.2]⟩
  | h4 pts sf k h =>
    rw [silence_loop_eq_done h, silence_loop_eq_done h]
    simp

theorem silence_loop_fuel_zero_div (w : Nat → Bool) :
    ∀ fuel sf k, silence_loop_fuel fuel 0 1 w true 0 sf k = none := by
  intro fuel
  induction fuel with
  | zero => intro sf k; rfl
  | succ n ih =>
    intro sf k
    simp [silence_loop_fuel, ih]

theorem fill_idx_st (mix : mix_s) (idx : Fin 4) (upto : Nat) (env : SilenceEnv) (k : Nat) :
    (mix_silence_fill_idx_upto mix idx upto env k).st =
      { mix with
          in_pts := Function.update mix.in_pts idx
            (silence_loop (ssOf mix) upto env.writeOk env.getBufOk
              (mix.in_pts idx) mix.silence_frame k).pts
          silence_frame := (silence_loop (ssOf mix) upto env.writeOk env.getBufOk
              (mix.in_pts idx) mix.silence_frame k).sf } := rfl

theorem fill_idx_out_pts (mix : mix_s) (idx : Fin 4) (upto : Nat) (env : SilenceEnv) (k : Nat) :
    (mix_silence_fill_idx_upto mix idx upto env k).st.out_pts = mix.out_pts := rfl

theorem fill_idx_pts_offs (mix : mix_s) (idx : Fin 4) (upto : Nat) (env : SilenceEnv) (k : Nat) :
    (mix_silence_fill_idx_upto mix idx upto env k).st.pts_offs = mix.pts_offs := rfl

theorem fill_idx_clockrate (mix : mix_s) (idx : Fin 4) (upto : Nat) (env : SilenceEnv) (k : Nat) :
    (mix_silence_fill_idx_upto mix idx upto env k).st.clockrate = mix.clockrate := rfl

theorem fill_idx_in_pts_self (mix : mix_s) (idx : Fin 4) (upto : Nat) (env : SilenceEnv) (k : Nat) :
    (mix_silence_fill_idx_upto mix idx upto env k).st.in_pts idx =
      (silence_loop (ssOf mix) upto env.writeOk env.getBufOk
        (mix.in_pts idx) mix.silence_frame k).pts := by
  rw [fill_idx_st]
  exact Function.update_same _ _ _

theorem fill_idx_in_pts_other (mix : mix_s) (idx : Fin 4) (upto : Nat) (env : SilenceEnv)
    (k : Nat) (j : Fin 4) (hj : j ≠ idx) :
    (mix_silence_fill_idx_upto mix idx upto env k).st.in_pts j = mix.in_pts j := by
  rw [fill_idx_st]
  exact Function.update_noteq hj _ _

theorem fill_idx_in_mono (mix : mix_s) (idx : Fin 4) (upto : Nat) (env : SilenceEnv)
    (k : Nat) (j : Fin 4) :
    mix.in_pts j ≤ (mix_silence_fill_idx_upto mix idx upto env k).st.in_pts j := by
  by_cases hj : j = idx
  · subst hj
    rw [fill_idx_in_pts_self]
    exact silence_loop_pts_lower _ _ _ _ _ _ _
  · rw [fill_idx_in_pts_other _ _ _ _ _ _ hj]

theorem fill_idx_in_upper (mix : mix_s) (idx : Fin 4) (upto : Nat) (env : SilenceEnv)
    (k : Nat) (j : Fin 4) :
    (mix_silence_fill_idx_upto mix idx upto env k).st.in_pts j ≤ max (mix.in_pts j) upto := by
  by_cases hj : j = idx
  · subst hj
    rw [fill_idx_in_pts_self]
    exact silence_loop_pts_upper _ _ _ _ _ _ _
  · rw [fill_idx_in_pts_other _ _ _ _ _ _ hj]
    exact le_max_left _ _

theorem fill_idx_complete (mix : mix_s) (idx : Fin 4) (upto : Nat) (w : Nat → Bool) (k : Nat)
    (hss : 1 ≤ ssOf mix) :
    (mix_silence_fill_idx_upto mix idx upto ⟨true, w⟩ k).st.in_pts idx =
      max (mix.in_pts idx) upto ∧
    (mix_silence_fill_idx_upto mix idx upto ⟨true, w⟩ k).diverged = false := by
  have h := silence_loop_complete (ssOf mix) upto w (mix.in_pts idx) mix.silence_frame k hss
  constructor
  · rw [fill_idx_in_pts_self]; exact h.1
  · exact h.2

theorem fill4_out_pts (mix : mix_s) (env : SilenceEnv) (k : Nat) :
    (mix_silence_fill mix env k).st.out_pts = mix.out_pts := by
  simp only [mix_silence_fill]
  split <;> (try rfl) <;> split <;> (try rfl) <;> split <;> (try rfl) <;> split <;> rfl

theorem fill4_pts_offs (mix : mix_s) (env : SilenceEnv) (k : Nat) :
    (mix_silence_fill mix env k).st.pts_offs = mix.pts_offs := by
  simp only [mix_silence_fill]
  split <;> (try rfl) <;> split <;> (try rfl) <;> split <;> (try rfl) <;> split <;> rfl

theorem fill_idx_step_upper (s : mix_s) (m0 : Fin 4 → Nat) (B : Nat) (idx : Fin 4)
    (upto : Nat) (env : SilenceEnv) (k : Nat)
    (hs : ∀ j, s.in_pts j ≤ max (m0 j) B) (hupto : upto ≤ B) (j : Fin 4) :
    (mix_silence_fill_idx_upto s idx upto env k).st.in_pts j ≤ max (m0 j) B := by
  by_cases hj : j = idx
  · subst hj
    calc (mix_silence_fill_idx_upto s j upto env k).st.in_pts j
        ≤ max (s.in_pts j) upto := fill_idx_in_upper _ _ _ _ _ _
      _ ≤ max (m0 j) B := by have := hs j; omega
  · rw [fill_idx_in_pts_other _ _ _ _ _ _ hj]
    exact hs j

theorem fill4_in_mono (mix : mix_s) (env : SilenceEnv) (k : Nat) (j : Fin 4) :
    mix.in_pts j ≤ (mix_silence_fill mix env k).st.in_pts j := by
  simp only [mix_silence_fill]
  split
  · exact le_refl _
  · split
    · exact fill_idx_in_mono _ _ _ _ _ _
    · split
      · exact le_trans (fill_idx_in_mono _ _ _ _ _ _) (fill_idx_in_mono _ _ _ _ _ _)
      · split
        · exact le_trans (fill_idx_in_mono _ _ _ _ _ _)
            (le_trans (fill_idx_in_mono _ _ _ _ _ _) (fill_idx_in_mono _ _ _ _ _ _))
        · exact le_trans (fill_idx_in_mono _ _ _ _ _ _)
            (le_trans (fill_idx_in_mono _ _ _ _ _ _)
              (le_trans (fill_idx_in_mono _ _ _ _ _ _) (fill_idx_in_mono _ _ _ _ _ _)))

theorem fill4_in_upper (mix : mix_s) (env : SilenceEnv) (k : Nat) (j : Fin 4) :
    (mix_silence_fill mix env k).st.in_pts j ≤ max (mix.in_pts j) mix.out_pts := by
  have hbase : ∀ i, mix.in_pts i ≤ max (mix.in_pts i) mix.out_pts := fun i => le_max_left _ _
  simp only [mix_silence_fill]
  split
  · exact hbase j
  · have hupto : mix.out_pts - u64ofInt mix.clockrate ≤ mix.out_pts := Nat.sub_le _ _
    set upto := mix.out_pts - u64ofInt mix.clockrate with hu
    set f0 := mix_silence_fill_idx_upto mix 0 upto env k with hf0
    set f1 := mix_silence_fill_idx_upto f0.st 1 upto env f0.k with hf1
    set f2 := mix_silence_fill_idx_upto f1.st 2 upto env f1.k with hf2
    set f3 := mix_silence_fill_idx_upto f2.st 3 upto env f2.k with hf3
    have s1 : ∀ j, f0.st.in_pts j ≤ max (mix.in_pts j) mix.out_pts := by
      rw [hf0]; exact fun j => fill_idx_step_upper mix mix.in_pts mix.out_pts 0 upto env k hbase hupto j
    have s2 : ∀ j, f1.st.in_pts j ≤ max (mix.in_pts j) mix.out_pts := by
      rw [hf1]; exact fun j => fill_idx_step_upper f0.st mix.in_pts mix.out_pts 1 upto env f0.k s1 hupto j
    have s3 : ∀ j, f2.st.in_pts j ≤ max (mix.in_pts j) mix.out_pts := by
      rw [hf2]; exact fun j => fill_idx_step_upper f1.st mix.in_pts mix.out_pts 2 upto env f1.k s2 hupto j
    have s4 : ∀ j, f3.st.in_pts j ≤ max (mix.in_pts j) mix.out_pts := by
      rw [hf3]; exact fun j => fill_idx_step_upper f2.st mix.in_pts mix.out_pts 3 upto env f2.k s3 hupto j
    split
    · exact s1 j
    · split
      · exact s2 j
      · split
        · exact s3 j
        · exact s4 j

theorem fill4_complete (mix : mix_s) (w : Nat → Bool) (k : Nat)
    (hss : 1 ≤ ssOf mix) (hguard : ¬ mix.out_pts < u64ofInt mix.clockrate) :
    (mix_silence_fill mix ⟨true, w⟩ k).diverged = false ∧
    ∀ j : Fin 4, (mix_silence_fill mix ⟨true, w⟩ k).st.in_pts j =
      max (mix.in_pts j) (mix.out_pts - u64ofInt mix.clockrate) := by
  simp only [mix_silence_fill]
  rw [if_neg hguard]
  set upto := mix.out_pts - u64ofInt mix.clockrate with hu
  set f0 := mix_silence_fill_idx_upto mix 0 upto ⟨true, w⟩ k with hf0
  set f1 := mix_silence_fill_idx_upto f0.st 1 upto ⟨true, w⟩ f0.k with hf1
  set f2 := mix_silence_fill_idx_upto f1.st 2 upto ⟨true, w⟩ f1.k with hf2
  set f3 := mix_silence_fill_idx_upto f2.st 3 upto ⟨true, w⟩ f2.k with hf3
  have hss0 : 1 ≤ ssOf f0.st := hss
  have hss1 : 1 ≤ ssOf f1.st := hss
  have hss2 : 1 ≤ ssOf f2.st := hss
  have h0 := fill_idx_complete mix 0 upto w k hss
  have h1 := fill_idx_complete f0.st 1 upto w f0.k hss0
  have h2 := fill_idx_complete f1.st 2 upto w f1.k hss1
  have h3 := fill_idx_complete f2.st 3 upto w f2.k hss2
  rw [← hf0] at h0
  rw [← hf1] at h1
  rw [← hf2] at h2
  rw [← hf3] at h3
  rw [h0.2, h1.2, h2.2, h3.2]
  simp only [Bool.false_eq_true, if_false]
  refine ⟨trivial, ?_⟩
  intro j
  fin_cases j
  · show f3.st.in_pts 0 = max (mix.in_pts 0) upto
    rw [hf3, fill_idx_in_pts_other _ _ _ _ _ _ (by decide),
        hf2, fill_idx_in_pts_other _ _ _ _ _ _ (by decide),
        hf1, fill_idx_in_pts_other _ _ _ _ _ _ (by decide), h0.1]
  · show f3.st.in_pts 1 = max (mix.in_pts 1) upto
    rw [hf3, fill_idx_in_pts_other _ _ _ _ _ _ (by decide),
        hf2, fill_idx_in_pts_other _ _ _ _ _ _ (by decide), h1.1,
        hf0, fill_idx_in_pts_other _ _ _ _ _ _ (by decide)]
  · show f3.st.in_pts 2 = max (mix.in_pts 2) upto
    rw [hf3, fill_idx_in_pts_other _ _ _ _ _ _ (by decide), h2.1,
        hf1, fill_idx_in_pts_other _ _ _ _ _ _ (by decide),
        hf0, fill_idx_in_pts_other _ _ _ _ _ _ (by decide)]
  · show f3.st.in_pts 3 = max (mix.in_pts 3) upto
    rw [h3.1,
        hf2, fill_idx_in_pts_other _ _ _ _ _ _ (by decide),
        hf1, fill_idx_in_pts_other _ _ _ _ _ _ (by decide),
        hf0, fill_idx_in_pts_other _ _ _ _ _ _ (by decide)]

theorem resample_counters (mix : mix_s) (f : AVFrame) (rs : ResampleEnv) :
    (mix_resample_frame mix f rs).st.out_pts = mix.out_pts ∧
    (mix_resample_frame mix f rs).st.in_pts = mix.in_pts ∧
    (mix_resample_frame mix f rs).st.pts_offs = mix.pts_offs ∧
    (mix_resample_frame mix f rs).st.built = mix.built ∧
    (mix_resample_frame mix f rs).st.clockrate = mix.clockrate ∧
    (mix_resample_frame mix f rs).st.channels = mix.channels ∧
    (mix_resample_frame mix f rs).st.next_idx = mix.next_idx ∧
    (mix_resample_frame mix f rs).st.silence_frame = mix.silence_frame := by
  simp only [mix_resample_frame, resampleConvert]
  split
  · exact ⟨rfl, rfl, rfl, rfl, rfl, rfl, rfl, rfl⟩
  · split
    · exact ⟨rfl, rfl, rfl, rfl, rfl, rfl, rfl, rfl⟩
    · split
      · exact ⟨rfl, rfl, rfl, rfl, rfl, rfl, rfl, rfl⟩
      · split
        · split
          · exact ⟨rfl, rfl, rfl, rfl, rfl, rfl, rfl, rfl⟩
          · split
            · exact ⟨rfl, rfl, rfl, rfl, rfl, rfl, rfl, rfl⟩
            · exact ⟨rfl, rfl, rfl, rfl, rfl, rfl, rfl, rfl⟩
        · split
          · exact ⟨rfl, rfl, rfl, rfl, rfl, rfl, rfl, rfl⟩
          · exact ⟨rfl, rfl, rfl, rfl, rfl, rfl, rfl, rfl⟩

theorem resample_evs_length (mix : mix_s) (f : AVFrame) (rs : ResampleEnv) :
    (mix_resample_frame mix f rs).evs.length =
      (if (mix_resample_frame mix f rs).fr = none then 1 else 0) := by
  simp only [mix_resample_frame, resampleConvert]
  split
  · simp
  · split
    · simp
    · split
      · simp
      · split
        · split
          · simp
          · split <;> simp
        · split <;> simp

theorem drain_counters (items : List DrainItem) : ∀ (mix : mix_s),
    (mix_drain mix items).st.out_pts = mix.out_pts ∧
    (mix_drain mix items).st.in_pts = mix.in_pts ∧
    (mix_drain mix items).st.pts_offs = mix.pts_offs ∧
    (mix_drain mix items).st.built = mix.built ∧
    (mix_drain mix items).st.clockrate = mix.clockrate ∧
    (mix_drain mix items).st.channels = mix.channels ∧
    (mix_drain mix items).st.next_idx = mix.next_idx ∧
    (mix_drain mix items).st.silence_frame = mix.silence_frame := by
  induction items with
  | nil => intro mix; exact ⟨rfl, rfl, rfl, rfl, rfl, rfl, rfl, rfl⟩
  | cons it rest ih =>
    intro mix
    cases it with
    | eagain => exact ⟨rfl, rfl, rfl, rfl, rfl, rfl, rfl, rfl⟩
    | error => exact ⟨rfl, rfl, rfl, rfl, rfl, rfl, rfl, rfl⟩
    | frame f rs sret =>
      have hr := resample_counters mix f rs
      have hd := ih (mix_resample_frame mix f rs).st
      simp only [mix_drain]
      split
      · exact hr
      · exact ⟨by dsimp only; rw [hd.1, hr.1],
               by dsimp only; rw [hd.2.1, hr.2.1],
               by dsimp only; rw [hd.2.2.1, hr.2.2.1],
               by dsimp only; rw [hd.2.2.2.1, hr.2.2.2.1],
               by dsimp only; rw [hd.2.2.2.2.1, hr.2.2.2.2.1],
               by dsimp only; rw [hd.2.2.2.2.2.1, hr.2.2.2.2.2.1],
               by dsimp only; rw [hd.2.2.2.2.2.2.1, hr.2.2.2.2.2.2.1],
               by dsimp only; rw [hd.2.2.2.2.2.2.2, hr.2.2.2.2.2.2.2]⟩

theorem drain_sink_fail (mix : mix_s) (f : AVFrame) (rs : ResampleEnv) (sret : Int)
    (rest : List DrainItem) (g : AVFrame)
    (hres : (mix_resample_frame mix f rs).fr = some g) (hsr : sret ≠ 0) :
    mix_drain mix (DrainItem.frame f rs sret :: rest) =
      ⟨-1, (mix_resample_frame mix f rs).st,
       (mix_resample_frame mix f rs).evs ++ [Ev.sink (some g)]⟩ := by
  simp only [mix_drain, hres]
  rw [if_pos hsr]

theorem drain_resample_fail (mix : mix_s) (f : AVFrame) (rs : ResampleEnv) (sret : Int)
    (rest : List DrainItem)
    (hres : (mix_resample_frame mix f rs).fr = none) :
    mix_drain mix (DrainItem.frame f rs sret :: rest) =
      ⟨(mix_drain (mix_resample_frame mix f rs).st rest).ret,
       (mix_drain (mix_resample_frame mix f rs).st rest).st,
       (mix_resample_frame mix f rs).evs ++ Ev.sink none ::
         (mix_drain (mix_resample_frame mix f rs).st rest).evs⟩ := by
  simp only [mix_drain, hres]
  rw [if_neg (by simp)]

theorem drain_states_counters (pre : List DrainItem) : ∀ (s : mix_s),
    (drain_states s pre).out_pts = s.out_pts ∧
    (drain_states s pre).in_pts = s.in_pts ∧
    (drain_states s pre).pts_offs = s.pts_offs := by
  induction pre with
  | nil => intro s; exact ⟨rfl, rfl, rfl⟩
  | cons it rest ih =>
    intro s
    have h2 := ih (drain_item_st s it)
    cases it with
    | eagain => exact h2
    | error => exact h2
    | frame f rs sret =>
      have h1 := resample_counters s f rs
      refine ⟨?_, ?_, ?_⟩
      · rw [show drain_states s (DrainItem.frame f rs sret :: rest) =
            drain_states (drain_item_st s (DrainItem.frame f rs sret)) rest from rfl,
          h2.1]
        exact h1.1
      · rw [show drain_states s (DrainItem.frame f rs sret :: rest) =
            drain_states (drain_item_st s (DrainItem.frame f rs sret)) rest from rfl,
          h2.2.1]
        exact h1.2.1
      · rw [show drain_states s (DrainItem.frame f rs sret :: rest) =
            drain_states (drain_item_st s (DrainItem.frame f rs sret)) rest from rfl,
          h2.2.2]
        exact h1.2.2.1

theorem mix_drain_ok_prefix (pre : List DrainItem) : ∀ (s : mix_s) (rest : List DrainItem),
    drain_ok s pre →
    mix_drain s (pre ++ rest) =
      ⟨(mix_drain (drain_states s pre) rest).ret,
       (mix_drain (drain_states s pre) rest).st,
       drain_evs s pre ++ (mix_drain (drain_states s pre) rest).evs⟩ := by
  induction pre with
  | nil =>
    intro s rest _
    simp [drain_states, drain_evs]
  | cons it pre ih =>
    intro s rest h
    obtain ⟨hfr, hret, hrest⟩ := h
    cases it with
    | eagain => simp [drain_item_is_frame] at hfr
    | error => simp [drain_item_is_frame] at hfr
    | frame f rs sret =>
      simp only [drain_item_ret] at hret
      show mix_drain s (DrainItem.frame f rs sret :: (pre ++ rest)) = _
      simp only [mix_drain]
      rw [if_neg (fun hc => hc hret)]
      rw [ih (mix_resample_frame s f rs).st rest hrest]
      simp only [drain_states, drain_evs, drain_item_st, drain_item_evs,
        List.append_assoc, List.cons_append, List.nil_append]

theorem mix_add_pre_mono (mix : mix_s) (f : AVFrame) (idx : Nat) (sil1 : SilenceEnv)
    (addOk : Bool) (sil2 : SilenceEnv) :
    (∀ j, mix.in_pts j ≤ ((mix_add_pre mix f idx sil1 addOk sil2).stOr mix).in_pts j) ∧
    mix.out_pts ≤ ((mix_add_pre mix f idx sil1 addOk sil2).stOr mix).out_pts := by
  simp only [mix_add_pre]
  split
  next h4 =>
    split
    next hb =>
      set i : Fin 4 := ⟨idx, h4⟩ with hi
      set m1 := if mix.pts_offs i = U64LIM - 1 then
          { mix with pts_offs := Function.update mix.pts_offs i (u64sub mix.out_pts f.pts) }
        else mix with hm1
      have hm1in : m1.in_pts = mix.in_pts := by rw [hm1]; split <;> rfl
      have hm1out : m1.out_pts = mix.out_pts := by rw [hm1]; split <;> rfl
      set fpts := u64add f.pts (m1.pts_offs i) with hfpts
      set f1 := mix_silence_fill_idx_upto m1 i fpts sil1 0 with hf1
      have hf1in : ∀ j, mix.in_pts j ≤ f1.st.in_pts j := by
        intro j
        rw [hf1, ← hm1in]
        exact fill_idx_in_mono _ _ _ _ _ _
      have hf1out : f1.st.out_pts = mix.out_pts := by
        rw [hf1, fill_idx_out_pts, hm1out]
      split
      · exact ⟨fun j => by simp only [PreOut.stOr]; exact hf1in j,
               by simp only [PreOut.stOr]; rw [hf1out]⟩
      · split
        · exact ⟨fun j => by simp only [PreOut.stOr]; exact hf1in j,
                 by simp only [PreOut.stOr]; rw [hf1out]⟩
        · set next_pts := u64add fpts f.nb_samples with hnext
          set m3 := { f1.st with
                        out_pts := max f1.st.out_pts next_pts
                        in_pts := Function.update f1.st.in_pts i (max (f1.st.in_pts i) next_pts) }
            with hm3
          have hm3in : ∀ j, f1.st.in_pts j ≤ m3.in_pts j := by
            intro j
            show f1.st.in_pts j ≤ Function.update f1.st.in_pts i (max (f1.st.in_pts i) next_pts) j
            by_cases hj : j = i
            · subst hj
              rw [Function.update_same]
              exact le_max_left _ _
            · rw [Function.update_noteq hj]
          have hm3out : mix.out_pts ≤ m3.out_pts := by
            show mix.out_pts ≤ max f1.st.out_pts next_pts
            rw [hf1out]
            exact le_max_left _ _
          set f2 := mix_silence_fill m3 sil2 f1.k with hf2
          have hf2in : ∀ j, mix.in_pts j ≤ f2.st.in_pts j := by
            intro j
            exact le_trans (hf1in j)
              (le_trans (hm3in j) (by rw [hf2]; exact fill4_in_mono _ _ _ _))
          have hf2out : mix.out_pts ≤ f2.st.out_pts := by
            rw [hf2, fill4_out_pts]
            exact hm3out
          split
          · exact ⟨fun j => by simp only [PreOut.stOr]; exact hf2in j,
                   by simp only [PreOut.stOr]; exact hf2out⟩
          · exact ⟨fun j => by simp only [PreOut.stOr]; exact hf2in j,
                   by simp only [PreOut.stOr]; exact hf2out⟩
    next => exact ⟨fun j => le_refl _, le_refl _⟩
  next => exact ⟨fun j => le_refl _, le_refl _⟩

theorem mix_add_mono (mix : mix_s) (f : AVFrame) (idx : Nat) (env : AddEnv) :
    (∀ j, mix.in_pts j ≤ (mix_add mix f idx env).st.in_pts j) ∧
    mix.out_pts ≤ (mix_add mix f idx env).st.out_pts := by
  have hp := mix_add_pre_mono mix f idx env.sil1 env.addOk env.sil2
  unfold mix_add
  cases h : mix_add_pre mix f idx env.sil1 env.addOk env.sil2 with
  | rejected msg => exact ⟨fun j => le_refl _, le_refl _⟩
  | failed s =>
    rw [h] at hp
    simp only [PreOut.stOr] at hp
    exact hp
  | diverged s fr =>
    rw [h] at hp
    simp only [PreOut.stOr] at hp
    exact hp
  | ok s =>
    rw [h] at hp
    simp only [PreOut.stOr] at hp
    have hd := drain_counters env.pulls s
    exact ⟨fun j => by dsimp only; rw [hd.2.1]; exact hp.1 j,
           by dsimp only; rw [hd.1]; exact hp.2⟩

theorem mix_add_st_counters (mix : mix_s) (f : AVFrame) (idx : Nat) (env : AddEnv) :
    (mix_add mix f idx env).st.out_pts =
      ((mix_add_pre mix f idx env.sil1 env.addOk env.sil2).stOr mix).out_pts ∧
    (mix_add mix f idx env).st.in_pts =
      ((mix_add_pre mix f idx env.sil1 env.addOk env.sil2).stOr mix).in_pts ∧
    (mix_add mix f idx env).st.pts_offs =
      ((mix_add_pre mix f idx env.sil1 env.addOk env.sil2).stOr mix).pts_offs ∧
    (mix_add mix f idx env).st.clockrate =
      ((mix_add_pre mix f idx env.sil1 env.addOk env.sil2).stOr mix).clockrate := by
  unfold mix_add
  cases h : mix_add_pre mix f idx env.sil1 env.addOk env.sil2 with
  | rejected msg => exact ⟨rfl, rfl, rfl, rfl⟩
  | failed s => exact ⟨rfl, rfl, rfl, rfl⟩
  | diverged s fr => exact ⟨rfl, rfl, rfl, rfl⟩
  | ok s =>
    have hd := drain_counters env.pulls s
    simp only [PreOut.stOr]
    exact ⟨hd.1, hd.2.1, hd.2.2.1, hd.2.2.2.2.1⟩

theorem mix_add_pre_offs (mix : mix_s) (f : AVFrame) (idx : Nat) (sil1 : SilenceEnv)
    (addOk : Bool) (sil2 : SilenceEnv) (j : Fin 4) (hj : mix.pts_offs j ≠ U64LIM - 1) :
    ((mix_add_pre mix f idx sil1 addOk sil2).stOr mix).pts_offs j = mix.pts_offs j := by
  simp only [mix_add_pre]
  split
  next h4 =>
    split
    next hb =>
      set i : Fin 4 := ⟨idx, h4⟩ with hi
      set m1 := if mix.pts_offs i = U64LIM - 1 then
          { mix with pts_offs := Function.update mix.pts_offs i (u64sub mix.out_pts f.pts) }
        else mix with hm1
      have hm1offs : m1.pts_offs j = mix.pts_offs j := by
        rw [hm1]
        split
        next hsent =>
          show Function.update mix.pts_offs i (u64sub mix.out_pts f.pts) j = mix.pts_offs j
          by_cases hij : j = i
          · subst hij; exact absurd hsent hj
          · rw [Function.update_noteq hij]
        next => rfl
      set fpts := u64add f.pts (m1.pts_offs i) with hfpts
      set f1 := mix_silence_fill_idx_upto m1 i fpts sil1 0 with hf1
      have hf1offs : f1.st.pts_offs j = mix.pts_offs j := by
        rw [hf1, fill_idx_pts_offs, hm1offs]
      split
      · simpa only [PreOut.stOr] using hf1offs
      · split
        · simpa only [PreOut.stOr] using hf1offs
        · set next_pts := u64add fpts f.nb_samples with hnext
          set m3 := { f1.st with
                        out_pts := max f1.st.out_pts next_pts
                        in_pts := Function.update f1.st.in_pts i (max (f1.st.in_pts i) next_pts) }
            with hm3
          set f2 := mix_silence_fill m3 sil2 f1.k with hf2
          have hf2offs : f2.st.pts_offs j = mix.pts_offs j := by
            rw [hf2]
            have := fill4_pts_offs m3 sil2 f1.k
            rw [this]
            exact hf1offs
          split
          · simpa only [PreOut.stOr] using hf2offs
          · simpa only [PreOut.stOr] using hf2offs
    next => exact rfl
  next => exact rfl

theorem mix_add_pre_offs_set (mix : mix_s) (f : AVFrame) (idx : Nat) (sil1 : SilenceEnv)
    (addOk : Bool) (sil2 : SilenceEnv) (h4 : idx < 4) (hb : mix.built = true)
    (hsent : mix.pts_offs ⟨idx, h4⟩ = U64LIM - 1) :
    ((mix_add_pre mix f idx sil1 addOk sil2).stOr mix).pts_offs ⟨idx, h4⟩ =
      u64sub mix.out_pts f.pts := by
  simp only [mix_add_pre]
  rw [dif_pos h4, if_pos hb]
  set i : Fin 4 := ⟨idx, h4⟩ with hi
  rw [if_pos hsent]
  set m1 := { mix with pts_offs := Function.update mix.pts_offs i (u64sub mix.out_pts f.pts) }
    with hm1
  have hm1offs : m1.pts_offs i = u64sub mix.out_pts f.pts := by
    rw [hm1]
    exact Function.update_same _ _ _
  set fpts := u64add f.pts (m1.pts_offs i) with hfpts
  set f1 := mix_silence_fill_idx_upto m1 i fpts sil1 0 with hf1
  have hf1offs : f1.st.pts_offs i = u64sub mix.out_pts f.pts := by
    rw [hf1, fill_idx_pts_offs, hm1offs]
  split
  · simpa only [PreOut.stOr] using hf1offs
  · split
    · simpa only [PreOut.stOr] using hf1offs
    · set next_pts := u64add fpts f.nb_samples with hnext
      set m3 := { f1.st with
                    out_pts := max f1.st.out_pts next_pts
                    in_pts := Function.update f1.st.in_pts i (max (f1.st.in_pts i) next_pts) }
        with hm3
      set f2 := mix_silence_fill m3 sil2 f1.k with hf2
      have hf2offs : f2.st.pts_offs i = u64sub mix.out_pts f.pts := by
        rw [hf2]
        have := fill4_pts_offs m3 sil2 f1.k
        rw [this]
        exact hf1offs
      split
      · simpa only [PreOut.stOr] using hf2offs
      · simpa only [PreOut.stOr] using hf2offs

theorem fill4_guard_lt (mix : mix_s) (env : SilenceEnv) (k : Nat)
    (h : mix.out_pts < u64ofInt mix.clockrate) :
    mix_silence_fill mix env k = ⟨mix, k, false⟩ := by
  simp only [mix_silence_fill]
  rw [if_pos h]

theorem fill4_clockrate (mix : mix_s) (env : SilenceEnv) (k : Nat) :
    (mix_silence_fill mix env k).st.clockrate = mix.clockrate := by
  simp only [mix_silence_fill]
  split <;> (try rfl) <;> split <;> (try rfl) <;> split <;> (try rfl) <;> split <;> rfl

theorem mix_add_pre_drift (mix : mix_s) (f : AVFrame) (idx : Nat) (w1 w2 : Nat → Bool)
    (h4 : idx < 4) (hb : mix.built = true) (hss : 1 ≤ ssOf mix) :
    ∃ s, mix_add_pre mix f idx ⟨true, w1⟩ true ⟨true, w2⟩ = PreOut.ok s ∧
      (u64ofInt mix.clockrate ≤ s.out_pts →
        ∀ j : Fin 4, s.out_pts - u64ofInt mix.clockrate ≤ s.in_pts j) := by
  simp only [mix_add_pre]
  rw [dif_pos h4, if_pos hb]
  set i : Fin 4 := ⟨idx, h4⟩ with hi
  set m1 := if mix.pts_offs i = U64LIM - 1 then
      { mix with pts_offs := Function.update mix.pts_offs i (u64sub mix.out_pts f.pts) }
    else mix with hm1
  have hm1cr : m1.clockrate = mix.clockrate := by rw [hm1]; split <;> rfl
  have hm1ss : ssOf m1 = ssOf mix := by unfold ssOf; rw [hm1cr]
  set fpts := u64add f.pts (m1.pts_offs i) with hfpts
  set f1 := mix_silence_fill_idx_upto m1 i fpts ⟨true, w1⟩ 0 with hf1
  have hf1d : f1.diverged = false := by
    rw [hf1]
    exact (fill_idx_complete m1 i fpts w1 0 (by omega)).2
  have hf1cr : f1.st.clockrate = mix.clockrate := by
    rw [hf1, fill_idx_clockrate, hm1cr]
  rw [hf1d]
  simp only [Bool.false_eq_true, if_false]
  rw [if_neg (by simp)]
  set next_pts := u64add fpts f.nb_samples with hnext
  set m3 := { f1.st with
                out_pts := max f1.st.out_pts next_pts
                in_pts := Function.update f1.st.in_pts i (max (f1.st.in_pts i) next_pts) }
    with hm3
  have hm3cr : m3.clockrate = mix.clockrate := hf1cr
  have hm3ss : ssOf m3 = ssOf mix := by unfold ssOf; rw [hm3cr]
  by_cases hguard : m3.out_pts < u64ofInt m3.clockrate
  · rw [fill4_guard_lt m3 ⟨true, w2⟩ f1.k hguard]
    simp only [Bool.false_eq_true, if_false]
    refine ⟨m3, rfl, ?_⟩
    intro habs
    rw [hm3cr] at hguard
    omega
  · have h2 := fill4_complete m3 w2 f1.k (by omega) hguard
    rw [h2.1]
    simp only [Bool.false_eq_true, if_false]
    refine ⟨(mix_silence_fill m3 ⟨true, w2⟩ f1.k).st, rfl, ?_⟩
    intro _ j
    have hout : (mix_silence_fill m3 ⟨true, w2⟩ f1.k).st.out_pts = m3.out_pts :=
      fill4_out_pts m3 ⟨true, w2⟩ f1.k
    have hval := h2.2 j
    rw [hout, hval, hm3cr]
    omega

theorem mix_add_of_ok (mix : mix_s) (f : AVFrame) (idx : Nat) (env : AddEnv) (s : mix_s)
    (h : mix_add_pre mix f idx env.sil1 env.addOk env.sil2 = PreOut.ok s) :
    (mix_add mix f idx env).diverged = false ∧
    (mix_add mix f idx env).st.out_pts = s.out_pts ∧
    (mix_add mix f idx env).st.in_pts = s.in_pts ∧
    (mix_add mix f idx env).st.pts_offs = s.pts_offs := by
  unfold mix_add
  rw [h]
  have hd := drain_counters env.pulls s
  exact ⟨rfl, hd.1, hd.2.1, hd.2.2.1⟩

theorem ss_of_clockrate (cr : Int) (h1 : 100 ≤ cr) (h2 : cr < 2147483648) :
    1 ≤ u32ofInt (Int.tdiv cr 100) := by
  unfold u32ofInt
  rw [Int.tdiv_eq_ediv (by omega) (by omega)]
  rw [Int.emod_eq_of_lt (by omega) (by unfold U32LIM; omega)]
  omega

theorem maxIn_ge (s : mix_s) : ∀ j : Fin 4, s.in_pts j ≤ maxIn s
  | ⟨0, _⟩ => by unfold maxIn; exact le_trans (le_max_left _ _) (le_max_left _ _)
  | ⟨1, _⟩ => by unfold maxIn; exact le_trans (le_max_right _ _) (le_max_left _ _)
  | ⟨2, _⟩ => by unfold maxIn; exact le_trans (le_max_left _ _) (le_max_right _ _)
  | ⟨3, _⟩ => by unfold maxIn; exact le_trans (le_max_right _ _) (le_max_right _ _)

theorem maxIn_le (s : mix_s) (x : Nat) (h : ∀ j : Fin 4, s.in_pts j ≤ x) : maxIn s ≤ x := by
  unfold maxIn
  have h0 := h 0
  have h1 := h 1
  have h2 := h 2
  have h3 := h 3
  omega

theorem maxIn_cases (s : mix_s) :
    maxIn s = s.in_pts 0 ∨ maxIn s = s.in_pts 1 ∨ maxIn s = s.in_pts 2 ∨
    maxIn s = s.in_pts 3 := by
  unfold maxIn
  omega

theorem config_counters (s : mix_s) (cr ch : Nat) (b : Bool) :
    (mix_config s cr ch b).st.in_pts = s.in_pts ∧
    (mix_config s cr ch b).st.out_pts = s.out_pts ∧
    (mix_config s cr ch b).st.pts_offs = s.pts_offs ∧
    (mix_config s cr ch b).st.next_idx = s.next_idx := by
  unfold mix_config mix_shutdown
  split
  · exact ⟨rfl, rfl, rfl, rfl⟩
  · split
    · exact ⟨rfl, rfl, rfl, rfl⟩
    · exact ⟨rfl, rfl, rfl, rfl⟩

theorem pre_ok_of_success (mix : mix_s) (f : AVFrame) (idx : Nat) (env : AddEnv)
    (hr : (mix_add mix f idx env).ret = 0)
    (hd : (mix_add mix f idx env).diverged = false) :
    mix_add_pre mix f idx env.sil1 env.addOk env.sil2 =
      PreOut.ok ((mix_add_pre mix f idx env.sil1 env.addOk env.sil2).stOr mix) := by
  unfold mix_add at hr hd
  cases h : mix_add_pre mix f idx env.sil1 env.addOk env.sil2 with
  | rejected msg => rw [h] at hr; simp at hr
  | failed s => rw [h] at hr; simp at hr
  | diverged s fr => rw [h] at hd; simp at hd
  | ok s => rfl

theorem u64add_eq_add {a b : Nat} (h : a + b < U64LIM) : u64add a b = a + b := by
  unfold u64add
  exact Nat.mod_eq_of_lt h

theorem mix_add_pre_timeline (mix : mix_s) (f : AVFrame) (idx : Nat) (sil1 : SilenceEnv)
    (aok : Bool) (sil2 : SilenceEnv) (s : mix_s) (h4 : idx < 4)
    (hw : add_no_wrap mix f ⟨idx, h4⟩)
    (hpre : mix_add_pre mix f idx sil1 aok sil2 = PreOut.ok s)
    (hinv : TimelineInv mix) : TimelineInv s := by
  obtain ⟨heq, hob, hib⟩ := hinv
  simp only [mix_add_pre] at hpre
  rw [dif_pos h4] at hpre
  by_cases hb : mix.built = true
  swap
  · rw [if_neg hb] at hpre
    simp at hpre
  rw [if_pos hb] at hpre
  set i : Fin 4 := ⟨idx, h4⟩ with hi
  set m1 := if mix.pts_offs i = U64LIM - 1 then
      { mix with pts_offs := Function.update mix.pts_offs i (u64sub mix.out_pts f.pts) }
    else mix with hm1
  have hm1in : m1.in_pts = mix.in_pts := by rw [hm1]; split <;> rfl
  have hm1out : m1.out_pts = mix.out_pts := by rw [hm1]; split <;> rfl
  have hm1off : m1.pts_offs i =
      (if mix.pts_offs i = U64LIM - 1 then u64sub mix.out_pts f.pts else mix.pts_offs i) := by
    rw [hm1]
    by_cases hsent : mix.pts_offs i = U64LIM - 1
    · rw [if_pos hsent, if_pos hsent]
      exact Function.update_same _ _ _
    · rw [if_neg hsent, if_neg hsent]
  set fpts := u64add f.pts (m1.pts_offs i) with hfpts
  have hwrap : fpts + f.nb_samples < U64LIM := by
    unfold add_no_wrap at hw
    rw [hfpts, hm1off]
    by_cases hsent : mix.pts_offs i = U64LIM - 1
    · rw [if_pos hsent]
      rw [if_pos hsent] at hw
      exact hw
    · rw [if_neg hsent]
      rw [if_neg hsent] at hw
      exact hw
  have hfb : fpts < U64LIM := by omega
  set f1 := mix_silence_fill_idx_upto m1 i fpts sil1 0 with hf1
  have hf1out : f1.st.out_pts = mix.out_pts := by rw [hf1, fill_idx_out_pts, hm1out]
  have hf1lo : mix.in_pts i ≤ f1.st.in_pts i := by
    rw [hf1, ← hm1in]
    exact fill_idx_in_mono _ _ _ _ _ _
  have hf1hi : f1.st.in_pts i ≤ max (mix.in_pts i) fpts := by
    rw [hf1, ← hm1in]
    exact fill_idx_in_upper _ _ _ _ _ _
  have hf1other : ∀ j : Fin 4, j ≠ i → f1.st.in_pts j = mix.in_pts j := by
    intro j hj
    rw [hf1, fill_idx_in_pts_other _ _ _ _ _ _ hj, hm1in]
  split at hpre
  · simp at hpre
  split at hpre
  · simp at hpre
  set next_pts := u64add fpts f.nb_samples with hnp
  have hnext : next_pts = fpts + f.nb_samples := by rw [hnp]; exact u64add_eq_add hwrap
  set m3 := { f1.st with
                out_pts := max f1.st.out_pts next_pts
                in_pts := Function.update f1.st.in_pts i (max (f1.st.in_pts i) next_pts) }
    with hm3
  have hm3out : m3.out_pts = max mix.out_pts next_pts := by
    rw [hm3]
    show max f1.st.out_pts next_pts = max mix.out_pts next_pts
    rw [hf1out]
  have hm3in_i : m3.in_pts i = max (f1.st.in_pts i) next_pts := by
    rw [hm3]
    exact Function.update_same _ _ _
  have hm3in_o : ∀ j : Fin 4, j ≠ i → m3.in_pts j = mix.in_pts j := by
    intro j hj
    rw [hm3]
    show Function.update f1.st.in_pts i (max (f1.st.in_pts i) next_pts) j = mix.in_pts j
    rw [Function.update_noteq hj]
    exact hf1other j hj
  have hfple : fpts ≤ next_pts := by omega
  have hm3le : ∀ j : Fin 4, m3.in_pts j ≤ m3.out_pts := by
    intro j
    by_cases hj : j = i
    · subst hj
      rw [hm3in_i, hm3out]
      have h1 : mix.in_pts i ≤ mix.out_pts := heq ▸ maxIn_ge mix i
      omega
    · rw [hm3in_o j hj, hm3out]
      have h1 : mix.in_pts j ≤ mix.out_pts := heq ▸ maxIn_ge mix j
      omega
  have hm3att : ∃ j : Fin 4, m3.in_pts j = m3.out_pts := by
    by_cases hcase : mix.out_pts ≤ next_pts
    · refine ⟨i, ?_⟩
      rw [hm3in_i, hm3out]
      have h1 : mix.in_pts i ≤ mix.out_pts := heq ▸ maxIn_ge mix i
      omega
    · have hout3 : m3.out_pts = mix.out_pts := by rw [hm3out]; omega
      have key : ∀ j0 : Fin 4, maxIn mix = mix.in_pts j0 →
          ∃ j : Fin 4, m3.in_pts j = m3.out_pts := by
        intro j0 hj0
        by_cases hji : j0 = i
        · subst hji
          refine ⟨i, ?_⟩
          rw [hm3in_i, hout3]
          have hmx : mix.in_pts i = mix.out_pts := by omega
          omega
        · refine ⟨j0, ?_⟩
          rw [hm3in_o j0 hji, hout3]
          omega
      rcases maxIn_cases mix with h | h | h | h
      · exact key 0 h
      · exact key 1 h
      · exact key 2 h
      · exact key 3 h
  have hm3ob : m3.out_pts < U64LIM := by rw [hm3out]; omega
  set f2 := mix_silence_fill m3 sil2 f1.k with hf2
  have hf2out : f2.st.out_pts = m3.out_pts := by rw [hf2]; exact fill4_out_pts _ _ _
  have hf2lo : ∀ j : Fin 4, m3.in_pts j ≤ f2.st.in_pts j := by
    intro j
    rw [hf2]
    exact fill4_in_mono _ _ _ _
  have hf2hi : ∀ j : Fin 4, f2.st.in_pts j ≤ m3.out_pts := by
    intro j
    have h1 : f2.st.in_pts j ≤ max (m3.in_pts j) m3.out_pts := by
      rw [hf2]
      exact fill4_in_upper _ _ _ _
    have h2 := hm3le j
    omega
  split at hpre
  · simp at hpre
  · have hs : f2.st = s := by
      injection hpre
    subst hs
    refine ⟨?_, ?_, ?_⟩
    · rw [hf2out]
      apply le_antisymm
      · obtain ⟨j0, hj0⟩ := hm3att
        have h1 := hf2lo j0
        have h2 := hf2hi j0
        have h3 : f2.st.in_pts j0 = m3.out_pts := by omega
        rw [← h3]
        exact maxIn_ge f2.st j0
      · exact maxIn_le _ _ hf2hi
    · rw [hf2out]
      exact hm3ob
    · intro j
      have := hf2hi j
      omega

/-- `maxIn` only depends on the `in_pts` field. -/
theorem maxIn_congr {a b : mix_s} (h : a.in_pts = b.in_pts) : maxIn a = maxIn b := by
  unfold maxIn
  rw [h]

theorem timeline_transfer {a b : mix_s} (hout : a.out_pts = b.out_pts)
    (hin : a.in_pts = b.in_pts) (h : TimelineInv b) : TimelineInv a := by
  obtain ⟨e1, e2, e3⟩ := h
  refine ⟨?_, ?_, ?_⟩
  · rw [hout, maxIn_congr hin]
    exact e1
  · rw [hout]
    exact e2
  · intro j
    rw [hin]
    exact e3 j

theorem timeline_mix_new : TimelineInv mix_new := by
  refine ⟨rfl, ?_, fun j => ?_⟩
  · show 0 < U64LIM
    decide
  · show 0 < U64LIM
    decide

/-- The timeline invariant holds in every state reachable through accepted,
terminating, wrap-free operations. -/
theorem timeline_reachok (s : mix_s) (h : ReachOk s) : TimelineInv s := by
  induction h with
  | init => exact timeline_mix_new
  | @config s2 cr ch b hr ih =>
    have hc := config_counters s2 cr ch b
    exact timeline_transfer hc.2.1 hc.1 ih
  | @get_index s2 hr ih =>
    exact timeline_transfer rfl rfl ih
  | @add s2 f idx env h4 hrret hd hw hr ih =>
    have hpre := pre_ok_of_success s2 f idx env hrret hd
    have ht := mix_add_pre_timeline s2 f idx env.sil1 env.addOk env.sil2 _ h4 hw hpre ih
    have hc := mix_add_st_counters s2 f idx env
    exact timeline_transfer hc.1 hc.2.1 ht

/-- Helper: rejection behaviour of `mix_add` for an out-of-range index or an
unbuilt topology. -/
theorem mix_add_reject (s : mix_s) (f : AVFrame) (idx : Nat) (env : AddEnv)
    (h : 4 ≤ idx ∨ s.built = false) :
    (mix_add s f idx env).ret = -1 ∧ (mix_add s f idx env).st = s ∧
    (mix_add s f idx env).freed = true ∧ (mix_add s f idx env).diverged = false := by
  unfold mix_add mix_add_pre
  rcases h with h | h
  · rw [dif_neg (by omega)]
    exact ⟨rfl, rfl, rfl, rfl⟩
  · by_cases h4 : idx < 4
    · rw [dif_pos h4, if_neg (by simp [h])]
      exact ⟨rfl, rfl, rfl, rfl⟩
    · rw [dif_neg h4]
      exact ⟨rfl, rfl, rfl, rfl⟩

theorem u32_int32_round (n : Nat) : u32ofInt (int32ofNat n) = n % U32LIM := by
  unfold u32ofInt int32ofNat U32LIM
  split
  · omega
  · omega

/-- Helper: after any `mix_config(s, cr, ch)` call, the stored parameters
compare equal (as C `unsigned int`) to `cr` and `ch`. -/
theorem config_params_match (s : mix_s) (cr ch : Nat) (b : Bool) :
    u32ofInt (mix_config s cr ch b).st.clockrate = cr % U32LIM ∧
    u32ofInt (mix_config s cr ch b).st.channels = ch % U32LIM := by
  unfold mix_config mix_shutdown
  split
  next h => exact ⟨h.1, h.2⟩
  next h =>
    split
    · exact ⟨u32_int32_round cr, u32_int32_round ch⟩
    · exact ⟨u32_int32_round cr, u32_int32_round ch⟩

/-- Claim C4 (amended): `mix_config` is a no-op returning success if and
only if the parameters are unchanged from the currently *stored* parameters
under the C `unsigned int` comparison, regardless of whether the topology
was actually built; and the second of two consecutive `mix_config` calls
with identical parameters is always such a no-op (no topology rebuild). -/
theorem claim_C4_theorem :
    (∀ (s : mix_s) (cr ch : Nat) (b : Bool),
      ((mix_config s cr ch b).ret = 0 ∧ (mix_config s cr ch b).rebuilt = false ∧
       (mix_config s cr ch b).st = s) ↔
      (u32ofInt s.clockrate = cr % U32LIM ∧ u32ofInt s.channels = ch % U32LIM)) ∧
    (∀ (s : mix_s) (cr ch : Nat) (b b2 : Bool),
      (mix_config (mix_config s cr ch b).st cr ch b2).ret = 0 ∧
      (mix_config (mix_config s cr ch b).st cr ch b2).rebuilt = false ∧
      (mix_config (mix_config s cr ch b).st cr ch b2).st = (mix_config s cr ch b).st) := by
  constructor
  · intro s cr ch b
    constructor
    · intro hl
      by_cases hmatch : u32ofInt s.clockrate = cr % U32LIM ∧ u32ofInt s.channels = ch % U32LIM
      · exact hmatch
      · exfalso
        have hr : (mix_config s cr ch b).rebuilt = true := by
          unfold mix_config
          rw [if_neg hmatch]
          split <;> rfl
        rw [hl.2.1] at hr
        exact Bool.false_ne_true hr
    · intro hmatch
      unfold mix_config
      rw [if_pos hmatch]
      exact ⟨rfl, rfl, rfl⟩
  · intro s cr ch b b2
    have hm := config_params_match s cr ch b
    set t := (mix_config s cr ch b).st with ht
    show (mix_config t cr ch b2).ret = 0 ∧ (mix_config t cr ch b2).rebuilt = false ∧
      (mix_config t cr ch b2).st = t
    unfold mix_config
    rw [if_pos ⟨hm.1, hm.2⟩]
    exact ⟨rfl, rfl, rfl⟩

/-- Counterexample to claim C4 as stated: on a fresh, never-configured
session (`built = false`, stored sentinel parameters `-1`),
`mix_config(mix, 4294967295, 4294967295)` compares the `unsigned int`
parameters equal to the stored `int` sentinels and returns 0 as a no-op
without building any topology, although the session is not in the
Configured state. -/
theorem claim_C4_cex :
    (mix_config mix_new 4294967295 4294967295 true).ret = 0 ∧
    (mix_config mix_new 4294967295 4294967295 true).rebuilt = false ∧
    (mix_config mix_new 4294967295 4294967295 true).st = mix_new ∧
    mix_new.built = false := by
  refine ⟨by decide, by decide, ?_, rfl⟩
  unfold mix_config
  rw [if_pos (by decide)]

/-- Claim C7 (amended): a submission to an out-of-range input index
(`idx ≥ NUM_INPUTS`), or to a session whose topology is not built (never
configured, or torn down by a failed configure), is rejected synchronously
with -1, the frame is freed, and no session state is mutated.  The
allocation status of an in-range index is *not* checked (see the
counterexample): `mix_get_index` bookkeeping plays no role in acceptance. -/
theorem claim_C7_theorem (s : mix_s) (f : AVFrame) (idx : Nat) (env : AddEnv)
    (h : 4 ≤ idx ∨ s.built = false) :
    (mix_add s f idx env).ret = -1 ∧ (mix_add s f idx env).st = s ∧
    (mix_add s f idx env).freed = true ∧ (mix_add s f idx env).diverged = false :=
  mix_add_reject s f idx env h

/-- Witness for claim C7 at a concrete input: index 7 on a fresh session. -/
theorem claim_C7_witness :
    (4 ≤ 7 ∨ mix_new.built = false) ∧
    ((mix_add mix_new ⟨0, 160, 1⟩ 7 addEnvOk).ret = -1 ∧
     (mix_add mix_new ⟨0, 160, 1⟩ 7 addEnvOk).st = mix_new ∧
     (mix_add mix_new ⟨0, 160, 1⟩ 7 addEnvOk).freed = true ∧
     (mix_add mix_new ⟨0, 160, 1⟩ 7 addEnvOk).diverged = false) :=
  ⟨Or.inl (by decide), claim_C7_theorem mix_new ⟨0, 160, 1⟩ 7 addEnvOk (Or.inl (by decide))⟩

/-- Counterexample to claim C7 as stated: on a configured session on which
`mix_get_index` was never called (`next_idx = 0`, so no input index was
ever allocated), a submission to the unallocated in-range index 3 is
accepted (returns 0), not rejected. -/
theorem claim_C7_cex :
    cfg8000.next_idx = 0 ∧
    (mix_add cfg8000 ⟨0, 160, 1⟩ 3 addEnvOk).ret = 0 := by
  exact ⟨by decide, by decide⟩

/-- Claim C9: four `mix_get_index` calls on a fresh session return the four
distinct values 0, 1, 2, 3 covering `[0, NUM_INPUTS)`; the fifth call
returns `NUM_INPUTS` itself, which lies outside `[0, NUM_INPUTS)` and is
disallowed by contract: every submission using it is rejected with the
frame freed and no state mutated. -/
theorem claim_C9_theorem :
    [alloc_val 0, alloc_val 1, alloc_val 2, alloc_val 3] = [0, 1, 2, 3] ∧
    [alloc_val 0, alloc_val 1, alloc_val 2, alloc_val 3].Nodup ∧
    ([alloc_val 0, alloc_val 1, alloc_val 2, alloc_val 3].all
      fun v => decide (v < NUM_INPUTS)) = true ∧
    alloc_val 4 = NUM_INPUTS ∧
    ¬ alloc_val 4 < NUM_INPUTS ∧
    ∀ (s : mix_s) (f : AVFrame) (env : AddEnv),
      (mix_add s f (alloc_val 4) env).ret = -1 ∧
      (mix_add s f (alloc_val 4) env).st = s ∧
      (mix_add s f (alloc_val 4) env).freed = true := by
  refine ⟨by decide, by decide, by decide, by decide, by decide, ?_⟩
  intro s f env
  have h := mix_add_reject s f (alloc_val 4) env (Or.inl (by decide))
  exact ⟨h.1, h.2.1, h.2.2.1⟩

/-- Helper: for an in-range index on a built topology, every non-rejecting
outcome of `mix_add_pre` carries the offset the C code stored: the old one
when it differs from the sentinel, `out_pts - frame->pts` otherwise. -/
theorem mix_add_pre_offs_char (mix : mix_s) (f : AVFrame) (idx : Nat) (sil1 : SilenceEnv)
    (aok : Bool) (sil2 : SilenceEnv) (h4 : idx < 4) (hb : mix.built = true) :
    ((mix_add_pre mix f idx sil1 aok sil2).stOr mix).pts_offs ⟨idx, h4⟩ =
      (if mix.pts_offs ⟨idx, h4⟩ = U64LIM - 1 then u64sub mix.out_pts f.pts
       else mix.pts_offs ⟨idx, h4⟩) := by
  simp only [mix_add_pre]
  rw [dif_pos h4, if_pos hb]
  set i : Fin 4 := ⟨idx, h4⟩ with hi
  set m1 := if mix.pts_offs i = U64LIM - 1 then
      { mix with pts_offs := Function.update mix.pts_offs i (u64sub mix.out_pts f.pts) }
    else mix with hm1
  have hm1off : m1.pts_offs i =
      (if mix.pts_offs i = U64LIM - 1 then u64sub mix.out_pts f.pts else mix.pts_offs i) := by
    rw [hm1]
    by_cases hsent : mix.pts_offs i = U64LIM - 1
    · rw [if_pos hsent, if_pos hsent]
      exact Function.update_same _ _ _
    · rw [if_neg hsent, if_neg hsent]
  set fpts := u64add f.pts (m1.pts_offs i) with hfpts
  set f1 := mix_silence_fill_idx_upto m1 i fpts sil1 0 with hf1
  have hf1off : f1.st.pts_offs i = m1.pts_offs i := by
    rw [hf1, fill_idx_pts_offs]
  split
  · simp only [PreOut.stOr]
    rw [hf1off, hm1off]
  · split
    · simp only [PreOut.stOr]
      rw [hf1off, hm1off]
    · set next_pts := u64add fpts f.nb_samples with hnext
      set m3 := { f1.st with
                    out_pts := max f1.st.out_pts next_pts
                    in_pts := Function.update f1.st.in_pts i (max (f1.st.in_pts i) next_pts) }
        with hm3
      set f2 := mix_silence_fill m3 sil2 f1.k with hf2
      have hf2off : f2.st.pts_offs i = m1.pts_offs i := by
        rw [hf2, fill4_pts_offs]
        show m3.pts_offs i = m1.pts_offs i
        rw [hm3]
        exact hf1off
      split
      · simp only [PreOut.stOr]
        rw [hf2off, hm1off]
      · simp only [PreOut.stOr]
        rw [hf2off, hm1off]

/-- Helper: a successful `mix_add_pre` produces the output timestamp
`max out_pts (frame->pts + pts_offs[idx] + nb_samples)` (all in `uint64_t`
arithmetic), with `pts_offs[idx]` the stored offset it carries. -/
theorem mix_add_pre_out_char (mix : mix_s) (f : AVFrame) (idx : Nat) (sil1 : SilenceEnv)
    (aok : Bool) (sil2 : SilenceEnv) (s : mix_s) (h4 : idx < 4)
    (hpre : mix_add_pre mix f idx sil1 aok sil2 = PreOut.ok s) :
    s.out_pts =
      max mix.out_pts (u64add (u64add f.pts (s.pts_offs ⟨idx, h4⟩)) f.nb_samples) := by
  simp only [mix_add_pre] at hpre
  rw [dif_pos h4] at hpre
  by_cases hb : mix.built = true
  swap
  · rw [if_neg hb] at hpre
    simp at hpre
  rw [if_pos hb] at hpre
  set i : Fin 4 := ⟨idx, h4⟩ with hi
  set m1 := if mix.pts_offs i = U64LIM - 1 then
      { mix with pts_offs := Function.update mix.pts_offs i (u64sub mix.out_pts f.pts) }
    else mix with hm1
  have hm1out : m1.out_pts = mix.out_pts := by rw [hm1]; split <;> rfl
  set fpts := u64add f.pts (m1.pts_offs i) with hfpts
  set f1 := mix_silence_fill_idx_upto m1 i fpts sil1 0 with hf1
  have hf1out : f1.st.out_pts = mix.out_pts := by rw [hf1, fill_idx_out_pts, hm1out]
  have hf1off : f1.st.pts_offs i = m1.pts_offs i := by rw [hf1, fill_idx_pts_offs]
  split at hpre
  · simp at hpre
  split at hpre
  · simp at hpre
  set next_pts := u64add fpts f.nb_samples with hnp
  set m3 := { f1.st with
                out_pts := max f1.st.out_pts next_pts
                in_pts := Function.update f1.st.in_pts i (max (f1.st.in_pts i) next_pts) }
    with hm3
  set f2 := mix_silence_fill m3 sil2 f1.k with hf2
  have hf2out : f2.st.out_pts = m3.out_pts := by rw [hf2]; exact fill4_out_pts _ _ _
  have hf2off : f2.st.pts_offs i = m1.pts_offs i := by
    rw [hf2, fill4_pts_offs]
    show m3.pts_offs i = m1.pts_offs i
    rw [hm3]
    exact hf1off
  split at hpre
  · simp at hpre
  · have hs : f2.st = s := by injection hpre
    subst hs
    rw [hf2out, hf2off]
    show max f1.st.out_pts next_pts = _
    rw [hf1out, hnp, hfpts]

/-- Claim C2 (amended): the per-input offset is assigned at every accepted
frame for which the stored offset still equals the sentinel `2^64 - 1`, to
`out_pts - frame->pts` (mod `2^64`); once the stored offset differs from
the sentinel it never changes again (across `mix_config`, `mix_get_index`
and every further `mix_add`, successful or not), and every accepted frame
has the stored offset added to its timestamp before any further processing
(visible in the resulting output-timestamp update).  Because a computed
offset can itself equal the sentinel, the assignment is not guaranteed to
happen exactly once (see the counterexample). -/
theorem claim_C2_theorem :
    (∀ (s : mix_s) (f : AVFrame) (idx : Nat) (env : AddEnv) (j : Fin 4),
      s.pts_offs j ≠ U64LIM - 1 → (mix_add s f idx env).st.pts_offs j = s.pts_offs j) ∧
    (∀ (s : mix_s) (cr ch : Nat) (b : Bool) (j : Fin 4),
      (mix_config s cr ch b).st.pts_offs j = s.pts_offs j) ∧
    (∀ (s : mix_s) (j : Fin 4), (mix_get_index s).2.pts_offs j = s.pts_offs j) ∧
    (∀ (s : mix_s) (f : AVFrame) (idx : Nat) (env : AddEnv) (h4 : idx < 4),
      s.built = true →
      (mix_add s f idx env).st.pts_offs ⟨idx, h4⟩ =
        (if s.pts_offs ⟨idx, h4⟩ = U64LIM - 1 then u64sub s.out_pts f.pts
         else s.pts_offs ⟨idx, h4⟩)) ∧
    (∀ (s : mix_s) (f : AVFrame) (idx : Nat) (env : AddEnv) (h4 : idx < 4),
      (mix_add s f idx env).ret = 0 → (mix_add s f idx env).diverged = false →
      (mix_add s f idx env).st.out_pts =
        max s.out_pts
          (u64add (u64add f.pts ((mix_add s f idx env).st.pts_offs ⟨idx, h4⟩))
            f.nb_samples)) := by
  refine ⟨?_, ?_, ?_, ?_, ?_⟩
  · intro s f idx env j hj
    have hc := (mix_add_st_counters s f idx env).2.2.1
    rw [congrFun hc j]
    exact mix_add_pre_offs s f idx env.sil1 env.addOk env.sil2 j hj
  · intro s cr ch b j
    exact congrFun (config_counters s cr ch b).2.2.1 j
  · intro s j
    rfl
  · intro s f idx env h4 hb
    have hc := (mix_add_st_counters s f idx env).2.2.1
    rw [congrFun hc ⟨idx, h4⟩]
    exact mix_add_pre_offs_char s f idx env.sil1 env.addOk env.sil2 h4 hb
  · intro s f idx env h4 hr hd
    have hpre := pre_ok_of_success s f idx env hr hd
    have hc := mix_add_st_counters s f idx env
    rw [hc.1, congrFun hc.2.2.1 ⟨idx, h4⟩]
    exact mix_add_pre_out_char s f idx env.sil1 env.addOk env.sil2 _ h4 hpre

/-- Witness for claim C2 at concrete inputs: after one accepted frame on a
configured session the stored offset for input 0 is 0 (not the sentinel),
and a second submission leaves it unchanged; the first submission stores
`out_pts - frame->pts` and updates `out_pts` using it. -/
theorem claim_C2_witness :
    ((mix_add cfg8000 ⟨0, 160, 1⟩ 0 addEnvOk).st.pts_offs 0 ≠ U64LIM - 1 ∧
     (mix_add (mix_add cfg8000 ⟨0, 160, 1⟩ 0 addEnvOk).st ⟨160, 160, 1⟩ 0
        addEnvOk).st.pts_offs 0 =
       (mix_add cfg8000 ⟨0, 160, 1⟩ 0 addEnvOk).st.pts_offs 0) ∧
    (mix_config cfg8000 8000 1 true).st.pts_offs 0 = cfg8000.pts_offs 0 ∧
    (mix_get_index cfg8000).2.pts_offs 0 = cfg8000.pts_offs 0 ∧
    (cfg8000.built = true ∧
     (mix_add cfg8000 ⟨0, 160, 1⟩ 0 addEnvOk).st.pts_offs ⟨0, by omega⟩ =
       (if cfg8000.pts_offs ⟨0, by omega⟩ = U64LIM - 1 then u64sub cfg8000.out_pts 0
        else cfg8000.pts_offs ⟨0, by omega⟩)) ∧
    ((mix_add cfg8000 ⟨0, 160, 1⟩ 0 addEnvOk).ret = 0 ∧
     (mix_add cfg8000 ⟨0, 160, 1⟩ 0 addEnvOk).st.out_pts =
       max cfg8000.out_pts
         (u64add (u64add 0 ((mix_add cfg8000 ⟨0, 160, 1⟩ 0 addEnvOk).st.pts_offs
            ⟨0, by omega⟩)) 160)) :=
  ⟨⟨by decide,
    claim_C2_theorem.1 (mix_add cfg8000 ⟨0, 160, 1⟩ 0 addEnvOk).st ⟨160, 160, 1⟩ 0 addEnvOk
      0 (by decide)⟩,
   claim_C2_theorem.2.1 cfg8000 8000 1 true 0,
   claim_C2_theorem.2.2.1 cfg8000 0,
   ⟨by decide, claim_C2_theorem.2.2.2.1 cfg8000 ⟨0, 160, 1⟩ 0 addEnvOk (by omega) (by decide)⟩,
   ⟨by decide, claim_C2_theorem.2.2.2.2 cfg8000 ⟨0, 160, 1⟩ 0 addEnvOk (by omega) (by decide)
      (by decide)⟩⟩

/-- Counterexample to claim C2 as stated: on a configured session whose
output timestamp is 0, a first frame with timestamp 1 has its offset
computed as `0 - 1 = 2^64 - 1`, the sentinel itself.  The second frame for
the same input therefore recomputes the offset (to `10 - 5 = 5`): the
offset is assigned twice with different values, and the second frame is
adjusted by 5 rather than by the first-computed `2^64 - 1` (which would
have produced `out_pts = 14`, not 20). -/
theorem claim_C2_cex :
    (mix_add cfg8000 ⟨1, 10, 1⟩ 0 addEnvOk).ret = 0 ∧
    (mix_add cfg8000 ⟨1, 10, 1⟩ 0 addEnvOk).st.pts_offs 0 = U64LIM - 1 ∧
    (mix_add (mix_add cfg8000 ⟨1, 10, 1⟩ 0 addEnvOk).st ⟨5, 10, 1⟩ 0 addEnvOk).ret = 0 ∧
    (mix_add (mix_add cfg8000 ⟨1, 10, 1⟩ 0 addEnvOk).st ⟨5, 10, 1⟩ 0
       addEnvOk).st.pts_offs 0 = 5 ∧
    (5 : Nat) ≠ U64LIM - 1 ∧
    (mix_add (mix_add cfg8000 ⟨1, 10, 1⟩ 0 addEnvOk).st ⟨5, 10, 1⟩ 0
       addEnvOk).st.out_pts = 20 ∧
    (20 : Nat) ≠ 14 := by
  refine ⟨by decide, by decide, by decide, by decide, by decide, by decide, by decide⟩

/-- Claim C6: if the output sink (`output_add`) reports failure for any
drained combined frame of the cycle — after an arbitrary run of
successfully drained frames — the submission returns -1 immediately, no
further drain iterations are performed (the result does not depend on what
the engine would have delivered next), the pts counters and offsets are
left exactly as they were when the drain started (in particular the
already-drained frames are not rolled back), and the sink receives the
already-drained frames, then exactly the failing one and nothing
afterwards. -/
theorem claim_C6_theorem (mix s4 : mix_s) (f : AVFrame) (idx : Nat) (env : AddEnv)
    (pre : List DrainItem) (f2 : AVFrame) (rs : ResampleEnv) (sret : Int)
    (rest : List DrainItem) (g : AVFrame)
    (hpre : mix_add_pre mix f idx env.sil1 env.addOk env.sil2 = PreOut.ok s4)
    (hp : env.pulls = pre ++ DrainItem.frame f2 rs sret :: rest)
    (hok : drain_ok s4 pre)
    (hres : (mix_resample_frame (drain_states s4 pre) f2 rs).fr = some g)
    (hsr : sret ≠ 0) :
    (mix_add mix f idx env).ret = -1 ∧
    (mix_add mix f idx env).st = (mix_resample_frame (drain_states s4 pre) f2 rs).st ∧
    (mix_add mix f idx env).st.out_pts = s4.out_pts ∧
    (mix_add mix f idx env).st.in_pts = s4.in_pts ∧
    (mix_add mix f idx env).st.pts_offs = s4.pts_offs ∧
    (mix_add mix f idx env).evs =
      drain_evs s4 pre ++
        ((mix_resample_frame (drain_states s4 pre) f2 rs).evs ++ [Ev.sink (some g)]) ∧
    (∀ rest2 : List DrainItem,
      mix_add mix f idx { env with pulls := pre ++ DrainItem.frame f2 rs sret :: rest2 } =
        mix_add mix f idx env) := by
  have hcomp := mix_drain_ok_prefix pre s4 (DrainItem.frame f2 rs sret :: rest) hok
  have hdr := drain_sink_fail (drain_states s4 pre) f2 rs sret rest g hres hsr
  have hds := drain_states_counters pre s4
  have hrc := resample_counters (drain_states s4 pre) f2 rs
  have hmain : mix_add mix f idx env =
      ⟨-1, (mix_resample_frame (drain_states s4 pre) f2 rs).st, true, false,
       drain_evs s4 pre ++
         ((mix_resample_frame (drain_states s4 pre) f2 rs).evs ++ [Ev.sink (some g)])⟩ := by
    unfold mix_add
    rw [hpre]
    dsimp only
    rw [hp, hcomp, hdr]
  refine ⟨by rw [hmain], by rw [hmain], ?_, ?_, ?_, by rw [hmain], ?_⟩
  · rw [hmain]
    show (mix_resample_frame (drain_states s4 pre) f2 rs).st.out_pts = s4.out_pts
    rw [hrc.1, hds.1]
  · rw [hmain]
    show (mix_resample_frame (drain_states s4 pre) f2 rs).st.in_pts = s4.in_pts
    rw [hrc.2.1, hds.2.1]
  · rw [hmain]
    show (mix_resample_frame (drain_states s4 pre) f2 rs).st.pts_offs = s4.pts_offs
    rw [hrc.2.2.1, hds.2.2]
  · intro rest2
    have hcomp2 := mix_drain_ok_prefix pre s4 (DrainItem.frame f2 rs sret :: rest2) hok
    have hdr2 := drain_sink_fail (drain_states s4 pre) f2 rs sret rest2 g hres hsr
    have h2 : mix_add mix f idx { env with pulls := pre ++ DrainItem.frame f2 rs sret :: rest2 } =
        ⟨-1, (mix_resample_frame (drain_states s4 pre) f2 rs).st, true, false,
         drain_evs s4 pre ++
           ((mix_resample_frame (drain_states s4 pre) f2 rs).evs ++ [Ev.sink (some g)])⟩ := by
      unfold mix_add
      dsimp only
      rw [hpre]
      dsimp only
      rw [hcomp2, hdr2]
    rw [hmain, h2]

/-- Witness for claim C6 at concrete inputs: the sink failure strikes
mid-cycle, after one frame has already been drained successfully. -/
theorem claim_C6_witness :
    mix_add_pre cfg8000 ⟨0, 160, 1⟩ 0 c6env.sil1 c6env.addOk c6env.sil2 = PreOut.ok c6s4 ∧
    drain_ok c6s4 [c6good] ∧
    ((mix_add cfg8000 ⟨0, 160, 1⟩ 0 c6env).ret = -1 ∧
     (mix_add cfg8000 ⟨0, 160, 1⟩ 0 c6env).st =
       (mix_resample_frame (drain_states c6s4 [c6good]) ⟨0, 160, 1⟩
          ⟨true, true, 0, 0, true, none⟩).st ∧
     (mix_add cfg8000 ⟨0, 160, 1⟩ 0 c6env).st.out_pts = c6s4.out_pts ∧
     (mix_add cfg8000 ⟨0, 160, 1⟩ 0 c6env).st.in_pts = c6s4.in_pts ∧
     (mix_add cfg8000 ⟨0, 160, 1⟩ 0 c6env).st.pts_offs = c6s4.pts_offs ∧
     (mix_add cfg8000 ⟨0, 160, 1⟩ 0 c6env).evs =
       drain_evs c6s4 [c6good] ++
         ((mix_resample_frame (drain_states c6s4 [c6good]) ⟨0, 160, 1⟩
            ⟨true, true, 0, 0, true, none⟩).evs ++ [Ev.sink (some ⟨0, 160, 1⟩)]) ∧
     (∀ rest2 : List DrainItem,
       mix_add cfg8000 ⟨0, 160, 1⟩ 0 { c6env with pulls := [c6good] ++ c6pull :: rest2 } =
         mix_add cfg8000 ⟨0, 160, 1⟩ 0 c6env)) :=
  ⟨rfl, ⟨rfl, rfl, trivial⟩,
   claim_C6_theorem cfg8000 c6s4 ⟨0, 160, 1⟩ 0 c6env [c6good] ⟨0, 160, 1⟩
     ⟨true, true, 0, 0, true, none⟩ (-1) [] ⟨0, 160, 1⟩ rfl rfl ⟨rfl, rfl, trivial⟩ rfl
     (by decide)⟩

/-- Claim C8: when the resampling of a drained frame fails, the failure is
logged (exactly one log line), the offending frame is dropped — the sink
call receives no frame — the session's counters and offsets are untouched
by the failing pull, and the drain continues with the remaining ready
frames exactly as it would from the post-resample state, so the session
remains usable.  (`output_add` itself lives in `output.c`, outside the
sources here; per the specification the sink reports no error for a
dropped frame — see `mix_drain`.) -/
theorem claim_C8_theorem (s : mix_s) (f2 : AVFrame) (rs : ResampleEnv) (sret : Int)
    (rest : List DrainItem)
    (hfail : (mix_resample_frame s f2 rs).fr = none) :
    mix_drain s (DrainItem.frame f2 rs sret :: rest) =
      ⟨(mix_drain (mix_resample_frame s f2 rs).st rest).ret,
       (mix_drain (mix_resample_frame s f2 rs).st rest).st,
       (mix_resample_frame s f2 rs).evs ++ Ev.sink none ::
         (mix_drain (mix_resample_frame s f2 rs).st rest).evs⟩ ∧
    (mix_resample_frame s f2 rs).st.out_pts = s.out_pts ∧
    (mix_resample_frame s f2 rs).st.in_pts = s.in_pts ∧
    (mix_resample_frame s f2 rs).st.pts_offs = s.pts_offs ∧
    (mix_resample_frame s f2 rs).st.built = s.built ∧
    (mix_resample_frame s f2 rs).evs.length = 1 := by
  have hrc := resample_counters s f2 rs
  have hlen := resample_evs_length s f2 rs
  rw [hfail] at hlen
  simp only [if_pos rfl] at hlen
  exact ⟨drain_resample_fail s f2 rs sret rest hfail, hrc.1, hrc.2.1, hrc.2.2.1,
    hrc.2.2.2.1, hlen⟩

/-- Witness for claim C8 at concrete inputs: a non-S16 frame whose converter
cannot be opened, followed by one more ready frame. -/
theorem claim_C8_witness :
    (mix_resample_frame cfg8000 ⟨0, 160, 8⟩ c8rs).fr = none ∧
    (mix_drain cfg8000 (DrainItem.frame ⟨0, 160, 8⟩ c8rs 0 :: [DrainItem.eagain]) =
      ⟨(mix_drain (mix_resample_frame cfg8000 ⟨0, 160, 8⟩ c8rs).st [DrainItem.eagain]).ret,
       (mix_drain (mix_resample_frame cfg8000 ⟨0, 160, 8⟩ c8rs).st [DrainItem.eagain]).st,
       (mix_resample_frame cfg8000 ⟨0, 160, 8⟩ c8rs).evs ++ Ev.sink none ::
         (mix_drain (mix_resample_frame cfg8000 ⟨0, 160, 8⟩ c8rs).st
            [DrainItem.eagain]).evs⟩ ∧
     (mix_resample_frame cfg8000 ⟨0, 160, 8⟩ c8rs).st.out_pts = cfg8000.out_pts ∧
     (mix_resample_frame cfg8000 ⟨0, 160, 8⟩ c8rs).st.in_pts = cfg8000.in_pts ∧
     (mix_resample_frame cfg8000 ⟨0, 160, 8⟩ c8rs).st.pts_offs = cfg8000.pts_offs ∧
     (mix_resample_frame cfg8000 ⟨0, 160, 8⟩ c8rs).st.built = cfg8000.built ∧
     (mix_resample_frame cfg8000 ⟨0, 160, 8⟩ c8rs).evs.length = 1) :=
  ⟨rfl, claim_C8_theorem cfg8000 ⟨0, 160, 8⟩ c8rs 0 [DrainItem.eagain] rfl⟩

/-- Claim C1 (amended): from any reachable session state with a sane stored
clock rate (`100 ≤ clockrate < 2^31`, so the 10 ms chunk is non-empty and
the `int`/`uint64_t` comparisons are value-preserving), every `mix_add`
call on a valid index with a built topology whose engine submission
succeeds and whose silence-frame buffer allocation succeeds terminates,
and afterwards, if `out_pts` has reached one second of audio, no input's
`in_pts` is more than `clockrate` samples behind `out_pts`. -/
theorem claim_C1_theorem (mix : mix_s) (f : AVFrame) (idx : Nat) (env : AddEnv)
    (_hre : Reach mix) (h4 : idx < 4) (hb : mix.built = true) (ha : env.addOk = true)
    (hg1 : env.sil1.getBufOk = true) (hg2 : env.sil2.getBufOk = true)
    (hcr : (100 : Int) ≤ mix.clockrate) (hcr2 : mix.clockrate < 2147483648) :
    (mix_add mix f idx env).diverged = false ∧
    (u64ofInt mix.clockrate ≤ (mix_add mix f idx env).st.out_pts →
      ∀ j : Fin 4, (mix_add mix f idx env).st.out_pts - u64ofInt mix.clockrate ≤
        (mix_add mix f idx env).st.in_pts j) := by
  obtain ⟨⟨gb1, w1⟩, aok, ⟨gb2, w2⟩, pulls⟩ := env
  dsimp only at ha hg1 hg2
  subst ha
  subst hg1
  subst hg2
  have hss : 1 ≤ ssOf mix := ss_of_clockrate mix.clockrate hcr hcr2
  obtain ⟨s, hpre, hdrift⟩ := mix_add_pre_drift mix f idx w1 w2 h4 hb hss
  have hok := mix_add_of_ok mix f idx ⟨⟨true, w1⟩, true, ⟨true, w2⟩, pulls⟩ s hpre
  refine ⟨hok.1, ?_⟩
  rw [hok.2.1, hok.2.2.1]
  exact hdrift

/-- Witness for claim C1 at concrete inputs: one 8000-sample frame on a
fresh 8000 Hz session brings `out_pts` to exactly one second. -/
theorem claim_C1_witness :
    Reach cfg8000 ∧ (0 : Nat) < 4 ∧ cfg8000.built = true ∧ addEnvOk.addOk = true ∧
    (100 : Int) ≤ cfg8000.clockrate ∧
    ((mix_add cfg8000 ⟨0, 8000, 1⟩ 0 addEnvOk).diverged = false ∧
     (u64ofInt cfg8000.clockrate ≤ (mix_add cfg8000 ⟨0, 8000, 1⟩ 0 addEnvOk).st.out_pts →
       ∀ j : Fin 4,
         (mix_add cfg8000 ⟨0, 8000, 1⟩ 0 addEnvOk).st.out_pts -
             u64ofInt cfg8000.clockrate ≤
           (mix_add cfg8000 ⟨0, 8000, 1⟩ 0 addEnvOk).st.in_pts j)) :=
  ⟨Reach.step Reach.init (Step.config mix_new 8000 1 true), by decide, by decide, rfl,
   by decide,
   claim_C1_theorem cfg8000 ⟨0, 8000, 1⟩ 0 addEnvOk
     (Reach.step Reach.init (Step.config mix_new 8000 1 true)) (by decide) (by decide) rfl
     rfl rfl (by decide) (by decide)⟩

/-- Counterexample to claim C1 as stated: from the reachable state
`cfg8000`, the call `mix_add(frame pts 0, 8080 samples, idx 0)` completes
(returns 0), `out_pts = 8080 ≥ clockrate = 8000`, but because the
silence-frame allocation failed the proactive pass left input 1 at
`in_pts = 0`, more than one second behind. -/
theorem claim_C1_cex :
    Reach cfg8000 ∧
    (mix_add cfg8000 ⟨0, 8080, 1⟩ 0 c1envBuf).ret = 0 ∧
    (mix_add cfg8000 ⟨0, 8080, 1⟩ 0 c1envBuf).diverged = false ∧
    u64ofInt cfg8000.clockrate ≤ (mix_add cfg8000 ⟨0, 8080, 1⟩ 0 c1envBuf).st.out_pts ∧
    (mix_add cfg8000 ⟨0, 8080, 1⟩ 0 c1envBuf).st.in_pts 1 +
        u64ofInt cfg8000.clockrate <
      (mix_add cfg8000 ⟨0, 8080, 1⟩ 0 c1envBuf).st.out_pts := by
  refine ⟨Reach.step Reach.init (Step.config mix_new 8000 1 true),
    by decide, by decide, by decide, by decide⟩

/-- Claim C3 (amended): in every session state reachable by operations in
which every submission was accepted, terminated, and suffered no `uint64_t`
wrap-around, `out_pts` equals the maximum of the `in_pts` counters (0 for
untouched inputs); and across *every* operation — including rejected and
failed ones — `out_pts` and each `in_pts[i]` are monotonically
non-decreasing.  After a failed submission the equality itself can be lost
(see the counterexample). -/
theorem claim_C3_theorem :
    (∀ s : mix_s, ReachOk s → s.out_pts = maxIn s) ∧
    (∀ s t : mix_s, Step s t →
      s.out_pts ≤ t.out_pts ∧ ∀ j : Fin 4, s.in_pts j ≤ t.in_pts j) := by
  constructor
  · intro s h
    exact (timeline_reachok s h).1
  · intro s t hst
    cases hst with
    | config cr ch b =>
      have hc := config_counters s cr ch b
      exact ⟨le_of_eq hc.2.1.symm, fun j => le_of_eq (congrFun hc.1 j).symm⟩
    | get_index =>
      exact ⟨le_refl _, fun j => le_refl _⟩
    | add f idx env hd =>
      have hm := mix_add_mono s f idx env
      exact ⟨hm.2, hm.1⟩

/-- Witness for claim C3 at concrete inputs: the fresh state, and one
`mix_get_index` step. -/
theorem claim_C3_witness :
    mix_new.out_pts = maxIn mix_new ∧
    (mix_new.out_pts ≤ (mix_get_index mix_new).2.out_pts ∧
     ∀ j : Fin 4, mix_new.in_pts j ≤ (mix_get_index mix_new).2.in_pts j) :=
  ⟨claim_C3_theorem.1 mix_new ReachOk.init,
   claim_C3_theorem.2 mix_new (mix_get_index mix_new).2 (Step.get_index mix_new)⟩

/-- Counterexample to claim C3 as stated: the catch-up silence fill advances
`in_pts[0]` to 500 before `av_buffersrc_add_frame` fails, and the failing
call returns -1 without updating `out_pts`; in the resulting reachable
state `out_pts = 160` but the maximum `in_pts` is 500. -/
theorem claim_C3_cex :
    Reach c3r2.st ∧
    c3r2.ret = -1 ∧
    c3r2.st.out_pts = 160 ∧
    maxIn c3r2.st = 500 ∧
    c3r2.st.out_pts ≠ maxIn c3r2.st := by
  refine ⟨?_, by decide, by decide, by decide, by decide⟩
  exact Reach.step
    (Reach.step (Reach.step Reach.init (Step.config mix_new 8000 1 true))
      (Step.add cfg8000 ⟨0, 160, 1⟩ 0 addEnvOk (by decide)))
    (Step.add c3s1 ⟨500, 50, 1⟩ 0 ⟨envAllOk, false, envAllOk, []⟩ (by decide))

/-- Claim C5 (amended): for every session state whose stored clock rate
satisfies `100 ≤ clockrate < 2^31` (so the 10 ms chunk `clockrate / 100`
is at least one sample), every input index and target, and a succeeding
silence-frame buffer allocation, `mix_silence_fill_idx_upto` terminates;
it synthesizes chunks of `min(clockrate / 100, upto - in_pts)` samples
(clamped so the target is never overshot, and at least one sample each),
advances that input's `in_pts` by exactly the sum of the chunk sizes, and
returns with `in_pts[idx] = max(old value, target)`, touching neither the
other inputs nor `out_pts`. -/
theorem claim_C5_theorem (s : mix_s) (idx : Fin 4) (upto k : Nat) (env : SilenceEnv)
    (hcr : (100 : Int) ≤ s.clockrate) (hcr2 : s.clockrate < 2147483648)
    (hg : env.getBufOk = true) :
    (mix_silence_fill_idx_upto s idx upto env k).diverged = false ∧
    (mix_silence_fill_idx_upto s idx upto env k).st.in_pts idx =
      max (s.in_pts idx) upto ∧
    (∀ j : Fin 4, j ≠ idx →
      (mix_silence_fill_idx_upto s idx upto env k).st.in_pts j = s.in_pts j) ∧
    (mix_silence_fill_idx_upto s idx upto env k).st.out_pts = s.out_pts ∧
    s.in_pts idx +
        ((mix_silence_fill_idx_upto s idx upto env k).chunks.map Chunk.nb).sum =
      max (s.in_pts idx) upto ∧
    ∀ c ∈ (mix_silence_fill_idx_upto s idx upto env k).chunks,
      c.nb = min (ssOf s) (upto - c.pts) ∧ 1 ≤ c.nb ∧
      c.pts + c.nb ≤ max (s.in_pts idx) upto := by
  obtain ⟨gb, w⟩ := env
  dsimp only at hg
  subst hg
  have hss : 1 ≤ ssOf s := ss_of_clockrate s.clockrate hcr hcr2
  have hcomp := fill_idx_complete s idx upto w k hss
  have hloop := silence_loop_complete (ssOf s) upto w (s.in_pts idx) s.silence_frame k hss
  have hsum := silence_loop_sum (ssOf s) upto w true (s.in_pts idx) s.silence_frame k
  have hmem := silence_loop_chunk_mem (ssOf s) upto w true (s.in_pts idx) s.silence_frame k
  refine ⟨hcomp.2, hcomp.1, ?_, ?_, ?_, ?_⟩
  · intro j hj
    exact fill_idx_in_pts_other s idx upto ⟨true, w⟩ k j hj
  · exact fill_idx_out_pts s idx upto ⟨true, w⟩ k
  · show s.in_pts idx +
        ((silence_loop (ssOf s) upto w true (s.in_pts idx) s.silence_frame k).chunks.map
          Chunk.nb).sum = max (s.in_pts idx) upto
    rw [← hsum, hloop.1]
  · intro c hc
    have h := hmem c hc
    refine ⟨h.2.2.1, h.2.2.2.1, ?_⟩
    have := h.2.2.2.2
    rw [hloop.1] at this
    exact this

/-- Witness for claim C5 at concrete inputs: filling input 0 of an 8000 Hz
session up to 100 samples (one 80-sample chunk and one clamped 20-sample
chunk). -/
theorem claim_C5_witness :
    ((100 : Int) ≤ cfg8000.clockrate ∧ envAllOk.getBufOk = true) ∧
    ((mix_silence_fill_idx_upto cfg8000 0 100 envAllOk 0).diverged = false ∧
     (mix_silence_fill_idx_upto cfg8000 0 100 envAllOk 0).st.in_pts 0 =
       max (cfg8000.in_pts 0) 100 ∧
     (∀ j : Fin 4, j ≠ 0 →
       (mix_silence_fill_idx_upto cfg8000 0 100 envAllOk 0).st.in_pts j =
         cfg8000.in_pts j) ∧
     (mix_silence_fill_idx_upto cfg8000 0 100 envAllOk 0).st.out_pts =
       cfg8000.out_pts ∧
     cfg8000.in_pts 0 +
         ((mix_silence_fill_idx_upto cfg8000 0 100 envAllOk 0).chunks.map Chunk.nb).sum =
       max (cfg8000.in_pts 0) 100 ∧
     ∀ c ∈ (mix_silence_fill_idx_upto cfg8000 0 100 envAllOk 0).chunks,
       c.nb = min (ssOf cfg8000) (100 - c.pts) ∧ 1 ≤ c.nb ∧
       c.pts + c.nb ≤ max (cfg8000.in_pts 0) 100) :=
  ⟨⟨by decide, rfl⟩,
   claim_C5_theorem cfg8000 0 100 0 envAllOk (by decide) (by decide) rfl⟩

/-- Counterexample to claim C5 as stated: at clock rate 50 the chunk size
`clockrate / 100` is zero, so with `in_pts[0] = 0 < 1 = upto` the C loop
makes no progress: the step-faithful `silence_loop_fuel` exhausts every
fuel bound (the loop never exits), the model marks the call as diverging,
and `in_pts` never reaches `max(0, 1) = 1`. -/
theorem claim_C5_cex :
    s50.built = true ∧ ssOf s50 = 0 ∧
    silence_loop_diverges 0 1 (fun _ => true) true 0 false ∧
    (mix_silence_fill_idx_upto s50 0 1 envAllOk 0).diverged = true ∧
    (mix_silence_fill_idx_upto s50 0 1 envAllOk 0).st.in_pts 0 = 0 ∧
    (0 : Nat) ≠ max 0 1 := by
  refine ⟨by decide, by decide, ?_, by decide, by decide, by decide⟩
  intro fuel k
  exact silence_loop_fuel_zero_div (fun _ => true) fuel false k

/-- Claim C10: the silence filler advances `in_pts` by each chunk's sample
count whether or not the engine accepted the chunk
(`av_buffersrc_write_frame` failure is only logged): the final counter,
termination flag and every chunk's timing are identical for any two
write-outcome environments; the final counter is the old one plus the sum
of all chunk sizes, every synthesized chunk (delivered or not) lies
entirely below the final counter, and any later fill pass for the same
input only synthesizes chunks at or above that counter — a chunk whose
forward failed is never re-synthesized. -/
theorem claim_C10_theorem (s : mix_s) (idx : Fin 4) (upto k : Nat) (gb : Bool)
    (w w2 : Nat → Bool) :
    (mix_silence_fill_idx_upto s idx upto ⟨gb, w⟩ k).st.in_pts idx =
      (mix_silence_fill_idx_upto s idx upto ⟨gb, w2⟩ k).st.in_pts idx ∧
    (mix_silence_fill_idx_upto s idx upto ⟨gb, w⟩ k).diverged =
      (mix_silence_fill_idx_upto s idx upto ⟨gb, w2⟩ k).diverged ∧
    (mix_silence_fill_idx_upto s idx upto ⟨gb, w⟩ k).chunks.map (fun c => (c.pts, c.nb)) =
      (mix_silence_fill_idx_upto s idx upto ⟨gb, w2⟩ k).chunks.map (fun c => (c.pts, c.nb)) ∧
    (mix_silence_fill_idx_upto s idx upto ⟨gb, w⟩ k).st.in_pts idx =
      s.in_pts idx +
        ((mix_silence_fill_idx_upto s idx upto ⟨gb, w⟩ k).chunks.map Chunk.nb).sum ∧
    (∀ c ∈ (mix_silence_fill_idx_upto s idx upto ⟨gb, w⟩ k).chunks,
      c.pts + c.nb ≤ (mix_silence_fill_idx_upto s idx upto ⟨gb, w⟩ k).st.in_pts idx) ∧
    ∀ (upto2 k2 : Nat) (env2 : SilenceEnv),
      ∀ c2 ∈ (mix_silence_fill_idx_upto
          (mix_silence_fill_idx_upto s idx upto ⟨gb, w⟩ k).st idx upto2 env2 k2).chunks,
        (mix_silence_fill_idx_upto s idx upto ⟨gb, w⟩ k).st.in_pts idx ≤ c2.pts := by
  have hind := silence_loop_w_indep (ssOf s) upto w w2 gb (s.in_pts idx) s.silence_frame k
  have hsum := silence_loop_sum (ssOf s) upto w gb (s.in_pts idx) s.silence_frame k
  have hmem := silence_loop_chunk_mem (ssOf s) upto w gb (s.in_pts idx) s.silence_frame k
  refine ⟨?_, ?_, ?_, ?_, ?_, ?_⟩
  · rw [fill_idx_in_pts_self, fill_idx_in_pts_self]
    exact hind.1
  · exact hind.2.2.2.1
  · exact hind.2.2.2.2
  · rw [fill_idx_in_pts_self]
    exact hsum
  · intro c hc
    rw [fill_idx_in_pts_self]
    exact (hmem c hc).2.2.2.2
  · intro upto2 k2 env2 c2 hc2
    rw [fill_idx_in_pts_self]
    have hmem2 := silence_loop_chunk_mem (ssOf (mix_silence_fill_idx_upto s idx upto ⟨gb, w⟩ k).st)
      upto2 env2.writeOk env2.getBufOk
      ((mix_silence_fill_idx_upto s idx upto ⟨gb, w⟩ k).st.in_pts idx)
      (mix_silence_fill_idx_upto s idx upto ⟨gb, w⟩ k).st.silence_frame k2
    have h := (hmem2 c2 hc2).1
    rw [fill_idx_in_pts_self] at h
    exact h

/-- Witness for claim C10 at concrete inputs: filling input 0 up to 100
with all writes failing versus all writes succeeding. -/
theorem claim_C10_witness :
    ((mix_silence_fill_idx_upto cfg8000 0 100 ⟨true, fun _ => false⟩ 0).st.in_pts 0 =
      (mix_silence_fill_idx_upto cfg8000 0 100 ⟨true, fun _ => true⟩ 0).st.in_pts 0) ∧
    ((mix_silence_fill_idx_upto cfg8000 0 100 ⟨true, fun _ => false⟩ 0).chunks.map
        (fun c => (c.pts, c.nb)) =
      (mix_silence_fill_idx_upto cfg8000 0 100 ⟨true, fun _ => true⟩ 0).chunks.map
        (fun c => (c.pts, c.nb))) ∧
    (Chunk.mk 0 80 false).pts + (Chunk.mk 0 80 false).nb ≤
      (mix_silence_fill_idx_upto cfg8000 0 100 ⟨true, fun _ => false⟩ 0).st.in_pts 0 ∧
    ∀ c2 ∈ (mix_silence_fill_idx_upto
        (mix_silence_fill_idx_upto cfg8000 0 100 ⟨true, fun _ => false⟩ 0).st 0 120
        envAllOk 5).chunks,
      (mix_silence_fill_idx_upto cfg8000 0 100 ⟨true, fun _ => false⟩ 0).st.in_pts 0 ≤
        c2.pts :=
  ⟨(claim_C10_theorem cfg8000 0 100 0 true (fun _ => false) (fun _ => true)).1,
   (claim_C10_theorem cfg8000 0 100 0 true (fun _ => false) (fun _ => true)).2.2.1,
   (claim_C10_theorem cfg8000 0 100 0 true (fun _ => false) (fun _ => true)).2.2.2.2.1
     (Chunk.mk 0 80 false) (by decide),
   fun c2 hc2 =>
     (claim_C10_theorem cfg8000 0 100 0 true (fun _ => false)
       (fun _ => true)).2.2.2.2.2 120 5 envAllOk c2 hc2⟩
